import Mathlib

/-!
Verification of the andre2-backend queue/session/reconciliation server.

The definitions below are a shallow embedding of the TypeScript sources:
  - src/queueManager.ts (= the QueueManager part of src/logger.ts):
    SubmittedTrack, hasTrack, fairInsertTrack, removeTrack, moveTrackBackOne,
    removeFallbackTrack, peekNextTrack, consumeNextTrack;
  - src/index.ts: the reconciliation poll (pollMasterUserPlayback), the
    master_play / master_pause / master_skip handlers, setCurrentTrackAndStart,
    the login de-duplication, listener-login, cleanupStaleSessions, and the
    history-ledger bounds.

Conventions of the embedding:
  - TypeScript strings that may be null/undefined/empty are modelled as
    String with the empty string playing the role of a falsy value, or as
    Option String where the source distinguishes null explicitly.
  - Machine time (Date.now()) is a Nat parameter; the source only ever
    subtracts a recorded timestamp from the current time, so truncated Nat
    subtraction agrees with the source on all states the process can reach.
  - Network effects (Spotify play/pause commands, WebSocket broadcasts) are
    modelled as an output list; the WebSocket loops skip closed sockets, so a
    broadcast is one output item carrying the payload shape.
  - The float comparison progress_ms > 0.9 * duration_ms is modelled as
    10 * progress > 9 * duration; for millisecond-scale integers the IEEE
    rounding of 0.9 (slightly above 9/10) never changes the outcome.
-/

/-- SubmittedTrack of queueManager.ts. Optional display-metadata strings use
the empty string for the absent value, matching TypeScript truthiness checks.
The jamCounts map is an association list email -> count. -/
structure SubmittedTrack where
  spotifyUri : String
  userEmail : Option String
  spotifyName : Option String
  timestamp : Nat
  name : Option String := none
  artist : Option String := none
  album : Option String := none
  albumArtUrl : Option String := none
  jamCounts : List (String × Nat) := []
  progress : Option (Nat × Nat) := none
deriving DecidableEq, Repr

/-- Truthiness of an optional string: null and the empty string are falsy. -/
def strPresent : Option String → Bool
  | none => false
  | some s => s != ""

/-- hasTrack: whether a URI already occurs in the submitted queue. -/
def hasTrack (submitted : List SubmittedTrack) (uri : String) : Bool :=
  submitted.any (fun t => t.spotifyUri == uri)

/-- Splice-style insertion: insert a at position n (clamped to the length),
exactly the semantics of Array.prototype.splice(n, 0, a). -/
def insertAt (n : Nat) (a : α) (l : List α) : List α :=
  l.take n ++ a :: l.drop n

/-- The joinOrder loop of fairInsertTrack: first-appearance order of the
non-empty submitter emails in the queue (seenUsers is membership in acc). -/
def joinOrderLoop : List SubmittedTrack → List String → List String
  | [], acc => acc
  | t :: ts, acc =>
    match t.userEmail with
    | none => joinOrderLoop ts acc
    | some e =>
      if e == "" then joinOrderLoop ts acc
      else if acc.contains e then joinOrderLoop ts acc
      else joinOrderLoop ts (acc ++ [e])

/-- joinOrder of fairInsertTrack. -/
def joinOrder (q : List SubmittedTrack) : List String :=
  joinOrderLoop q []

/-- userCounts[u] of fairInsertTrack: number of existing tracks of user u. -/
def userCount (q : List SubmittedTrack) (u : String) : Nat :=
  (q.filter (fun t => t.userEmail == some u)).length

/-- The lastUserIdx loop of fairInsertTrack, shifted by one so that the
source value -1 becomes 0: returns (last index occupied by u) + 1, or 0. -/
def lastUserIdxLoop (u : String) : List SubmittedTrack → Nat → Nat → Nat
  | [], _, acc => acc
  | t :: ts, i, acc =>
    lastUserIdxLoop u ts (i + 1) (if t.userEmail == some u then i + 1 else acc)

/-- lastUserIdx + 1 of fairInsertTrack (0 when the user has no track). -/
def lastUserIdxPlusOne (q : List SubmittedTrack) (u : String) : Nat :=
  lastUserIdxLoop u q 0 0

/-- Bump the roundsSeen counter of email e (an association list). -/
def bumpRound (rs : List (String × Nat)) (e : String) : Nat × List (String × Nat) :=
  match rs.lookup e with
  | some r => (r + 1, rs.map (fun p => if p.1 == e then (p.1, r + 1) else p))
  | none => (1, rs ++ [(e, 1)])

/-- The boundary scan of fairInsertTrack, shifted by one so that the source
value -1 becomes 0: the last position i (as i+1) whose entry belongs to a
pivot user and completes a round <= newRound. -/
def boundaryLoop (pivot : List String) (newRound : Nat) :
    List SubmittedTrack → Nat → List (String × Nat) → Nat → Nat
  | [], _, _, acc => acc
  | t :: ts, i, rs, acc =>
    match t.userEmail with
    | none => boundaryLoop pivot newRound ts (i + 1) rs acc
    | some e =>
      if e == "" then boundaryLoop pivot newRound ts (i + 1) rs acc
      else
        let pr := bumpRound rs e
        let acc' := if pivot.contains e && decide (pr.1 ≤ newRound) then i + 1 else acc
        boundaryLoop pivot newRound ts (i + 1) pr.2 acc'

/-- boundaryIdx + 1 of fairInsertTrack (0 when no boundary entry exists). -/
def boundaryIdxPlusOne (q : List SubmittedTrack) (pivot : List String) (newRound : Nat) : Nat :=
  boundaryLoop pivot newRound q 0 [] 0

/-- fairInsertTrack of queueManager.ts: null or empty submitter email appends
at the end; otherwise insert at max(lastUserIdx + 1, boundaryIdx + 1). -/
def fairInsertTrack (q : List SubmittedTrack) (t : SubmittedTrack) : List SubmittedTrack :=
  match t.userEmail with
  | none => q ++ [t]
  | some e =>
    if e == "" then q ++ [t]
    else
      let newRound := userCount q e + 1
      let lastP1 := lastUserIdxPlusOne q e
      let boundP1 := boundaryIdxPlusOne q (joinOrder q) newRound
      insertAt (max lastP1 boundP1) t q

/-- removeTrack of queueManager.ts: findIndex by URI, then splice(idx, 1);
returns the removed track (null when absent) and the resulting queue. -/
def removeTrack (q : List SubmittedTrack) (uri : String) :
    Option SubmittedTrack × List SubmittedTrack :=
  match q.findIdx? (fun t => t.spotifyUri == uri) with
  | none => (none, q)
  | some i => (q.get? i, q.eraseIdx i)

/-- moveTrackBackOne of queueManager.ts: swap the entry with its successor;
returns false (queue unchanged) when the URI is absent or already last. -/
def moveTrackBackOne (q : List SubmittedTrack) (uri : String) :
    Bool × List SubmittedTrack :=
  match q.findIdx? (fun t => t.spotifyUri == uri) with
  | none => (false, q)
  | some i =>
    match q.get? i, q.get? (i + 1) with
    | some a, some b => (true, q.take i ++ b :: a :: q.drop (i + 2))
    | _, _ => (false, q)

/-- removeFallbackTrack of queueManager.ts: delete by URI from the fallback
queue only. -/
def removeFallbackTrack (fb : List SubmittedTrack) (uri : String) :
    Bool × List SubmittedTrack :=
  match fb.findIdx? (fun t => t.spotifyUri == uri) with
  | none => (false, fb)
  | some i => (true, fb.eraseIdx i)

/-- The two queue tiers of the QueueManager. -/
structure QM where
  submitted : List SubmittedTrack
  fallback : List SubmittedTrack
deriving DecidableEq, Repr

/-- peekNextTrack of queueManager.ts. The playlist fetch that repopulates an
empty fallback queue is an input: reload = none models a failed or impossible
fetch, reload = some ts the successfully fetched (already shuffled) tracks.
The fallback playlist URL is always non-empty (the constructor defaults it),
so only the access-token presence gates the reload. -/
def peekNextTrack (qm : QM) (tokenPresent : Bool) (reload : Option (List SubmittedTrack)) :
    Option (SubmittedTrack × Bool) × QM :=
  match qm.submitted with
  | t :: _ => (some (t, false), qm)
  | [] =>
    match qm.fallback with
    | t :: _ => (some (t, true), qm)
    | [] =>
      if tokenPresent then
        match reload with
        | some ts =>
          match ts with
          | t :: _ => (some (t, true), { qm with fallback := ts })
          | [] => (none, { qm with fallback := [] })
        | none => (none, qm)
      else (none, qm)

/-- consumeNextTrack of queueManager.ts: shift the head of the chosen tier
(no-op on an empty tier). -/
def consumeNextTrack (qm : QM) (isFallback : Bool) : QM :=
  if isFallback then { qm with fallback := qm.fallback.tail }
  else { qm with submitted := qm.submitted.tail }

/-- Global playback mode of index.ts. -/
inductive Mode
  | masterPlay
  | masterPause
deriving DecidableEq, Repr

/-- The observed play/pause state of the conductor player. -/
inductive PlayState
  | play
  | pause
deriving DecidableEq, Repr

/-- One polled playback snapshot (lastPlaybackState / curr in index.ts);
null fields of the source are none here. -/
structure Snapshot where
  uri : Option String
  progress_ms : Option Nat
  duration_ms : Option Nat
  is_playing : Option Bool
deriving DecidableEq, Repr

/-- PlayHistoryEntry of index.ts. -/
structure PlayHistoryEntry where
  timestamp : Nat
  track : SubmittedTrack
  startedBy : Option String
deriving DecidableEq, Repr

/-- The event kinds of the history ledger. -/
inductive HEventType
  | track_added
  | jam
  | unjam
  | airhorn
  | fallback_play
  | track_play
  | user_connected
  | user_disconnected
  | message
  | track_skip
deriving DecidableEq, Repr

/-- HistoryEvent of index.ts; the untyped details payload is summarised as a
string, which is enough for every property stated below. -/
structure HistoryEvent where
  type : HEventType
  timestamp : Nat
  userName : String
  userEmail : String
  details : String := ""
deriving DecidableEq, Repr

/-- MAX_HISTORY_EVENTS of index.ts. -/
def MAX_HISTORY_EVENTS : Nat := 500

/-- TRACK_CHANGE_GRACE_PERIOD_MS of index.ts. -/
def TRACK_CHANGE_GRACE_PERIOD_MS : Nat := 3000

/-- PLAYBACK_FAILURE_TIMEOUT_MS of index.ts. -/
def PLAYBACK_FAILURE_TIMEOUT_MS : Nat := 5000

/-- The trim performed at the top of broadcastHistory: splice away everything
before the last MAX_HISTORY_EVENTS entries. -/
def trimHistory (h : List HistoryEvent) : List HistoryEvent :=
  if h.length > MAX_HISTORY_EVENTS then h.drop (h.length - MAX_HISTORY_EVENTS) else h

/-- The room state of index.ts that the reconciliation loop and the master
commands read and write (module-level variables, queues included). -/
structure ServerState where
  submitted : List SubmittedTrack
  fallback : List SubmittedTrack
  mode : Mode
  currentlyPlayingTrack : Option SubmittedTrack
  currentTrackIsFallback : Bool
  currentTrackConsumed : Bool
  masterUserSessionId : Option String
  lastMasterPlaybackState : Option PlayState
  masterTrackStarted : Bool
  lastPlaybackState : Option Snapshot
  lastTrackChangeCommand : Nat
  lastManualSkipAt : Nat
  playbackFailureCheckTime : Nat
  expectedPlayingUri : Option String
  history : List HistoryEvent
  playHistory : List PlayHistoryEntry
deriving DecidableEq, Repr

/-- Externally visible effects of one handler or poll tick. Broadcasts skip
sessions whose socket is closed, so each broadcast is one payload item. -/
inductive Out
  | playbackError
  | playCommand (uri : String)
  | pauseCommand
  | tracksBroadcast
  | modeBroadcast
  | historyBroadcast
  | playHistoryBroadcast
  | consumedFromQueue (isFallback : Bool)
deriving DecidableEq, Repr

/-- Environment of one poll tick: the clock, whether the master session and
its access token exist, the playback snapshot the provider returned, the
playlist tracks a fallback reload would yield, and the display name of the
master user (read from the session map for history entries). -/
structure PollInput where
  now : Nat
  tokenPresent : Bool
  snap : Snapshot
  reload : Option (List SubmittedTrack)
  masterName : Option String
deriving Repr

/-- The fallback_play history event of recordFallbackPlay. -/
def fallbackPlayEvent (now : Nat) (t : SubmittedTrack) : HistoryEvent :=
  { type := .fallback_play, timestamp := now, userName := "System",
    userEmail := "fallback@system", details := (t.name).getD t.spotifyUri }

/-- setCurrentTrackAndStart of index.ts: adopt the peeked (not consumed)
track as current, record a fallback play when applicable, reset the grace
and failure-tracking clocks, command playback, broadcast. -/
def setCurrentTrackAndStart (s : ServerState) (now : Nat) (newTrack : SubmittedTrack)
    (isFallback : Bool) : ServerState × List Out :=
  let s := { s with currentlyPlayingTrack := some newTrack,
                    currentTrackIsFallback := isFallback,
                    currentTrackConsumed := false }
  let s := if isFallback then
      { s with history := trimHistory (s.history ++ [fallbackPlayEvent now newTrack]) }
    else s
  let s := { s with masterTrackStarted := false,
                    lastTrackChangeCommand := now,
                    expectedPlayingUri := some newTrack.spotifyUri,
                    playbackFailureCheckTime := now }
  (s, (if isFallback then [Out.historyBroadcast] else [])
      ++ [Out.playCommand newTrack.spotifyUri, Out.tracksBroadcast, Out.modeBroadcast])

/-- The playback-failure check at the top of pollMasterUserPlayback: after
PLAYBACK_FAILURE_TIMEOUT_MS without observing the expected URI playing, emit
playback_error, clear the current track, and adopt the next peeked track. -/
def failurePhase (s : ServerState) (now : Nat) (curr : Snapshot)
    (tokenPresent : Bool) (reload : Option (List SubmittedTrack)) :
    ServerState × List Out :=
  match s.expectedPlayingUri with
  | none => (s, [])
  | some exp =>
    if s.playbackFailureCheckTime > 0 then
      if now - s.playbackFailureCheckTime > PLAYBACK_FAILURE_TIMEOUT_MS then
        if curr.uri ≠ some exp ∨ curr.is_playing ≠ some true then
          let s := { s with currentlyPlayingTrack := none,
                            expectedPlayingUri := none,
                            playbackFailureCheckTime := 0 }
          let pk := peekNextTrack ⟨s.submitted, s.fallback⟩ tokenPresent reload
          let s := { s with submitted := pk.2.submitted, fallback := pk.2.fallback }
          match pk.1 with
          | some tb =>
            ({ s with currentlyPlayingTrack := some tb.1,
                      expectedPlayingUri := some tb.1.spotifyUri,
                      playbackFailureCheckTime := now },
             [Out.playbackError, Out.tracksBroadcast,
              Out.playCommand tb.1.spotifyUri, Out.tracksBroadcast])
          | none => (s, [Out.playbackError, Out.tracksBroadcast])
        else
          ({ s with expectedPlayingUri := none, playbackFailureCheckTime := 0 }, [])
      else (s, [])
    else (s, [])

/-- Track-end detection of pollMasterUserPlayback: progress reset to zero on
the same URI, or a URI change, both while the previous snapshot stood past
ninety percent of its duration. -/
def endDetected (prev : Option Snapshot) (curr : Snapshot) : Bool :=
  match prev with
  | none => false
  | some p =>
    let nearEnd : Bool :=
      match p.progress_ms, p.duration_ms with
      | some pp, some pd => pd != 0 && 10 * pp > 9 * pd
      | _, _ => false
    let resetCase : Bool :=
      match p.uri, curr.uri with
      | some pu, some cu => pu == cu && curr.progress_ms == some 0 && nearEnd
      | _, _ => false
    let changeCase : Bool :=
      match p.uri, curr.uri with
      | some pu, some cu => pu != cu && nearEnd
      | _, _ => false
    resetCase || changeCase

/-- Progress mirroring of pollMasterUserPlayback: copy the polled position
and duration onto the current track, or null the progress field. -/
def updateProgress (s : ServerState) (curr : Snapshot) : ServerState :=
  match s.currentlyPlayingTrack with
  | none => s
  | some c =>
    match curr.progress_ms, curr.duration_ms with
    | some pm, some dm =>
      { s with currentlyPlayingTrack := some { c with progress := some (pm, dm) } }
    | _, _ => { s with currentlyPlayingTrack := some { c with progress := none } }

/-- The track_play history event recorded on a natural advance. -/
def trackPlayEvent (now : Nat) (t : SubmittedTrack) (userName userEmail : String) :
    HistoryEvent :=
  { type := .track_play, timestamp := now, userName := userName,
    userEmail := userEmail, details := (t.name).getD t.spotifyUri }

/-- The drift-correction block of pollMasterUserPlayback: when the observed
URI differs from the intended one and the grace period has passed, either
splice the observed track out of the submitted queue and adopt it (natural
advance), or command the intended URI on the master player. -/
def driftPhase (s : ServerState) (i : PollInput) : ServerState × List Out :=
  match s.currentlyPlayingTrack, i.snap.uri with
  | some c, some mUri =>
    if mUri ≠ c.spotifyUri then
      if i.now - s.lastTrackChangeCommand < TRACK_CHANGE_GRACE_PERIOD_MS then (s, [])
      else if hasTrack s.submitted mUri then
        let justSkipped := s.lastManualSkipAt ≠ 0 ∧
          i.now - s.lastManualSkipAt < TRACK_CHANGE_GRACE_PERIOD_MS
        let s := if justSkipped then { s with lastManualSkipAt := 0 } else s
        match s.submitted.findIdx? (fun t => t.spotifyUri == mUri) with
        | some qi =>
          let s := { s with playHistory :=
            s.playHistory ++ [({ timestamp := i.now, track := c, startedBy := i.masterName } : PlayHistoryEntry)] }
          match s.submitted.get? qi with
          | some newTrack =>
            let s := { s with submitted := s.submitted.eraseIdx qi,
                              currentlyPlayingTrack := some newTrack,
                              masterTrackStarted := true }
            let s := { s with history := trimHistory (s.history ++
              (if ¬ justSkipped ∧ strPresent newTrack.name ∧ strPresent newTrack.artist
               then [trackPlayEvent i.now newTrack (i.masterName.getD "Unknown") ""]
               else [])) }
            (s, [Out.tracksBroadcast, Out.modeBroadcast,
                 Out.playHistoryBroadcast, Out.historyBroadcast])
          | none => (s, [])
        | none => (s, [])
      else (s, [Out.playCommand c.spotifyUri])
    else (s, [])
  | _, _ => (s, [])

/-- Whether the current track progress snapshot stands at one hundred percent
(the progressPercentage >= 1.0 test, with the positivity guards). -/
def progressComplete (s : ServerState) : Bool :=
  match s.currentlyPlayingTrack with
  | some c =>
    match c.progress with
    | some pd => decide (pd.1 > 0 ∧ pd.2 > 0 ∧ pd.1 ≥ pd.2)
    | none => false
  | none => false

/-- The finished-track check of pollMasterUserPlayback: when the started
track stands at one hundred percent, record it in the play history and adopt
the next peeked track (or stop in master_pause when none exists). -/
def finishedPhase (s : ServerState) (i : PollInput) : ServerState × List Out :=
  if s.masterTrackStarted ∧ progressComplete s then
    match s.currentlyPlayingTrack with
    | some c =>
      let s := { s with playHistory := s.playHistory ++ [({ timestamp := i.now, track := c, startedBy := i.masterName } : PlayHistoryEntry)] }
      let pk := peekNextTrack ⟨s.submitted, s.fallback⟩ i.tokenPresent i.reload
      let s := { s with submitted := pk.2.submitted, fallback := pk.2.fallback }
      match pk.1 with
      | some tb =>
        let r := setCurrentTrackAndStart s i.now tb.1 tb.2
        (r.1, Out.playHistoryBroadcast :: r.2)
      | none =>
        let s := { s with currentlyPlayingTrack := none,
                          masterTrackStarted := false,
                          currentTrackConsumed := true }
        if s.mode ≠ .masterPause then
          ({ s with mode := .masterPause },
           [Out.playHistoryBroadcast, Out.tracksBroadcast, Out.modeBroadcast])
        else (s, [Out.playHistoryBroadcast])
    | none => (s, [])
  else (s, [])

/-- The play/pause transition block at the tail of pollMasterUserPlayback,
including the consume-on-confirm branch guarded by mode not master_play and
the pause interpretation guarded by the grace window and track completion. -/
def transitionPhase (s : ServerState) (i : PollInput) (newState : PlayState) :
    ServerState × List Out :=
  if s.lastMasterPlaybackState ≠ some newState then
    let s := { s with lastMasterPlaybackState := some newState }
    if newState = .play ∧ s.mode ≠ .masterPlay then
      let s := { s with mode := .masterPlay }
      match s.currentlyPlayingTrack with
      | some _ =>
        let s := { s with masterTrackStarted := true }
        if ¬ s.currentTrackConsumed then
          let qm := consumeNextTrack ⟨s.submitted, s.fallback⟩ s.currentTrackIsFallback
          ({ s with submitted := qm.submitted, fallback := qm.fallback,
                    currentTrackConsumed := true },
           [Out.consumedFromQueue s.currentTrackIsFallback, Out.modeBroadcast])
        else (s, [Out.modeBroadcast])
      | none => (s, [Out.modeBroadcast])
    else if newState = .pause ∧ s.mode ≠ .masterPause then
      if i.now - s.lastTrackChangeCommand < TRACK_CHANGE_GRACE_PERIOD_MS then (s, [])
      else if s.masterTrackStarted ∧ progressComplete s then (s, [])
      else ({ s with mode := .masterPause }, [Out.modeBroadcast])
    else (s, [])
  else
    match s.currentlyPlayingTrack with
    | some c => if c.progress.isSome then (s, [Out.modeBroadcast]) else (s, [])
    | none => (s, [])

/-- The advance taken when a track end was detected: push the outgoing track
to the play history, peek the next track and adopt it, or stop playback. -/
def advanceOnEnd (s : ServerState) (i : PollInput) : ServerState × List Out :=
  let po : ServerState × List Out :=
    match s.currentlyPlayingTrack with
    | some c => ({ s with playHistory := s.playHistory ++ [({ timestamp := i.now, track := c, startedBy := i.masterName } : PlayHistoryEntry)] },
                 [Out.playHistoryBroadcast])
    | none => (s, [])
  let s := po.1
  let pk := peekNextTrack ⟨s.submitted, s.fallback⟩ i.tokenPresent i.reload
  let s := { s with submitted := pk.2.submitted, fallback := pk.2.fallback }
  match pk.1 with
  | some tb =>
    let r := setCurrentTrackAndStart s i.now tb.1 tb.2
    (r.1, po.2 ++ r.2)
  | none =>
    let s := { s with currentlyPlayingTrack := none,
                      masterTrackStarted := false,
                      currentTrackConsumed := true }
    if s.mode ≠ .masterPause then
      ({ s with mode := .masterPause }, po.2 ++ [Out.tracksBroadcast, Out.modeBroadcast])
    else (s, po.2)

/-- The remainder of a poll tick once no track-end advance ended it: the
master_pause early return, then the is_playing block with drift correction,
progress mirroring, the finished check and the play/pause transition. -/
def pollRest (s : ServerState) (i : PollInput) : ServerState × List Out :=
  if s.mode = .masterPause then
    (updateProgress s i.snap, [Out.modeBroadcast])
  else
    match i.snap.is_playing with
    | none => (s, [])
    | some p =>
      let newState : PlayState := if p then .play else .pause
      let r1 := driftPhase s i
      let s := updateProgress r1.1 i.snap
      let r2 := finishedPhase s i
      let r3 := transitionPhase r2.1 i newState
      (r3.1, r1.2 ++ r2.2 ++ r3.2)

/-- pollMasterUserPlayback of index.ts as one serialised tick, for a tick on
which the provider call succeeded and returned the snapshot of the input. -/
def pollStep (s : ServerState) (i : PollInput) : ServerState × List Out :=
  if ¬ i.tokenPresent then (s, []) else
  let prev := s.lastPlaybackState
  let curr := i.snap
  let s := { s with lastPlaybackState := some curr }
  let r0 := failurePhase s i.now curr i.tokenPresent i.reload
  let s := r0.1
  if endDetected prev curr then
    if s.lastManualSkipAt ≠ 0 ∧ i.now - s.lastManualSkipAt < TRACK_CHANGE_GRACE_PERIOD_MS then
      let r := pollRest { s with lastManualSkipAt := 0 } i
      (r.1, r0.2 ++ r.2)
    else
      let r := advanceOnEnd s i
      (r.1, r0.2 ++ r.2)
  else
    let r := pollRest s i
    (r.1, r0.2 ++ r.2)

/-- Environment of one inbound master command: clock, master token presence,
the fallback reload a peek would perform, and the display name and email of
the master session for history entries. -/
structure CommandInput where
  now : Nat
  tokenPresent : Bool
  reload : Option (List SubmittedTrack)
  masterName : Option String
  masterEmail : String
deriving Repr

/-- The track_skip history event of the master_skip handler. -/
def trackSkipEvent (now : Nat) (userName userEmail : String) (t : SubmittedTrack) :
    HistoryEvent :=
  { type := .track_skip, timestamp := now, userName := userName,
    userEmail := userEmail, details := (t.name).getD t.spotifyUri }

/-- The live master_skip case of index.ts (the first of the two case labels;
the later duplicate case carrying the conductor check is unreachable because
a switch statement runs the first matching case). The sender session-id is a
parameter and, as in the source, never inspected. -/
def masterSkipStep (s : ServerState) (senderSessionId : String) (i : CommandInput) :
    ServerState × List Out :=
  let _ := senderSessionId
  if s.mode = .masterPlay then
    let s := { s with lastManualSkipAt := i.now }
    let po : ServerState × List Out :=
      match s.currentlyPlayingTrack with
      | some c =>
        ({ s with
            playHistory := s.playHistory ++
              [({ timestamp := i.now, track := c, startedBy := i.masterName } : PlayHistoryEntry)],
            history := trimHistory (s.history ++
              [trackSkipEvent i.now (i.masterName.getD "Unknown") i.masterEmail c]) },
         [Out.playHistoryBroadcast, Out.historyBroadcast])
      | none => (s, [])
    let s := po.1
    let pk := peekNextTrack ⟨s.submitted, s.fallback⟩ i.tokenPresent i.reload
    let s := { s with submitted := pk.2.submitted, fallback := pk.2.fallback }
    match pk.1 with
    | some tb =>
      let r := setCurrentTrackAndStart s i.now tb.1 tb.2
      (r.1, po.2 ++ r.2)
    | none => (s, po.2)
  else (s, [])

/-- The master_play case of index.ts; the message carries no session-id, so
no sender can be checked. -/
def masterPlayStep (s : ServerState) (i : CommandInput) : ServerState × List Out :=
  if s.mode ≠ .masterPlay then
    let s := { s with mode := .masterPlay }
    let sp : ServerState × List Out :=
      match s.currentlyPlayingTrack with
      | none =>
        let pk := peekNextTrack ⟨s.submitted, s.fallback⟩ i.tokenPresent i.reload
        let s := { s with submitted := pk.2.submitted, fallback := pk.2.fallback }
        match pk.1 with
        | some tb =>
          ({ s with currentlyPlayingTrack := some tb.1,
                    currentTrackIsFallback := tb.2,
                    currentTrackConsumed := false }, [Out.tracksBroadcast])
        | none => (s, [])
      | some _ => (s, [])
    let s := sp.1
    match s.currentlyPlayingTrack with
    | some c =>
      ({ s with lastTrackChangeCommand := i.now,
                expectedPlayingUri := some c.spotifyUri,
                playbackFailureCheckTime := i.now },
       sp.2 ++ [Out.playCommand c.spotifyUri, Out.modeBroadcast])
    | none => (s, sp.2 ++ [Out.modeBroadcast])
  else (s, [])

/-- The master_pause case of index.ts; the message carries no session-id, so
no sender can be checked. -/
def masterPauseStep (s : ServerState) : ServerState × List Out :=
  if s.mode ≠ .masterPause then
    ({ s with mode := .masterPause }, [Out.pauseCommand, Out.modeBroadcast])
  else (s, [])

/-- Spotify-identity part of a session (empty string = field absent). -/
structure SpotifyState where
  name : String
  email : String
  access_token : String
  refresh_token : String
deriving DecidableEq, Repr

/-- Listener-identity part of a session. -/
structure ListenerState where
  name : String
  email : String
deriving DecidableEq, Repr

/-- One entry of the session map (the WebSocket handle is not part of the
state the claims quantify over; broadcasts already skip closed handles). -/
structure SessionRec where
  spotify : Option SpotifyState
  listener : Option ListenerState
  lastHeartbeat : Nat
deriving DecidableEq, Repr

/-- The session map; a JS Map iterates in insertion order, so it is a list
of key-value pairs with unique keys. -/
abbrev Sessions := List (String × SessionRec)

/-- Lower-casing used by the de-duplication comparison (character-wise, as
string lower-casing; written over the character list so that it reduces in
the kernel). -/
def lowerStr (s : String) : String :=
  String.mk (s.data.map Char.toLower)

/-- The spotify email of a session, empty string when absent. -/
def spotEmail (r : SessionRec) : String :=
  match r.spotify with | some sp => sp.email | none => ""

/-- The email of a session as computed on login: spotify email first, then
listener email, empty string when neither exists. -/
def sessEmail (r : SessionRec) : String :=
  if spotEmail r ≠ "" then spotEmail r
  else match r.listener with | some l => l.email | none => ""

/-- The login validation of index.ts: a complete spotify identity or a
complete listener identity. -/
def validSession (r : SessionRec) : Bool :=
  (match r.spotify with | some sp => sp.name != "" && sp.email != "" | none => false)
  || (match r.listener with | some l => l.name != "" && l.email != "" | none => false)

/-- Whether a session currently holds a provider access token. -/
def sessHasToken (r : SessionRec) : Bool :=
  match r.spotify with | some sp => sp.access_token != "" | none => false

/-- The synchronous prefix of assignMasterUserIfNeeded: when no master is
set, the first session in map order holding an access token becomes master. -/
def assignMasterIfNeeded (ss : Sessions) (masterId : Option String) : Option String :=
  match masterId with
  | some m => some m
  | none => (ss.find? (fun p => sessHasToken p.2)).map Prod.fst

/-- Result of processing a login message. -/
structure LoginResult where
  sessions : Sessions
  masterId : Option String
  ok : Bool
deriving DecidableEq, Repr

/-- The login case of index.ts for a session-id already present in the map:
validation, removal of every other session with the same email compared
case-insensitively, conductor transfer when the evicted duplicate was the
conductor and the logging-in session carries a spotify email and an access
token, then the synchronous prefix of assignMasterUserIfNeeded. -/
def loginStep (ss : Sessions) (masterId : Option String) (sid : String) : LoginResult :=
  match List.lookup sid ss with
  | none => { sessions := ss, masterId := masterId, ok := false }
  | some r =>
    if ¬ validSession r then
      { sessions := ss.filter (fun p => p.1 ≠ sid), masterId := masterId, ok := false }
    else
      let curEmail := sessEmail r
      let dups := (ss.filter (fun p =>
        p.1 != sid && sessEmail p.2 != "" &&
        (lowerStr (sessEmail p.2) == lowerStr curEmail))).map Prod.fst
      let masterId' :=
        if dups.any (fun d => masterId == some d) && spotEmail r != "" && sessHasToken r
        then some sid else masterId
      let ss' := ss.filter (fun p => ! dups.contains p.1)
      { sessions := ss',
        masterId := assignMasterIfNeeded ss' masterId',
        ok := true }

/-- POST /api/listener-login of index.ts: unconditionally create a fresh
session for the given name and email (the uuid is an input). -/
def listenerLoginStep (ss : Sessions) (freshId : String) (name email : String) (now : Nat) :
    Sessions :=
  if name ≠ "" ∧ email ≠ "" then
    ss ++ [(freshId, { spotify := none, listener := some ⟨name, email⟩, lastHeartbeat := now })]
  else ss

/-- HEARTBEAT_TIMEOUT_MS of index.ts. -/
def HEARTBEAT_TIMEOUT_MS : Nat := 60000

/-- The user_disconnected history event appended for an evicted session. -/
def disconnectEvent (now : Nat) (r : SessionRec) : HistoryEvent :=
  { type := .user_disconnected, timestamp := now,
    userName := (match r.spotify with
      | some sp => if sp.name ≠ "" then sp.name else
          (match r.listener with | some l => l.name | none => "Unknown")
      | none => match r.listener with | some l => l.name | none => "Unknown"),
    userEmail := sessEmail r }

/-- cleanupStaleSessions of index.ts: evict every session whose heartbeat is
older than HEARTBEAT_TIMEOUT_MS and append a disconnection event for each;
the master session-id variable is not touched. -/
def cleanupStaleSessions (ss : Sessions) (masterId : Option String)
    (hist : List HistoryEvent) (now : Nat) :
    Sessions × Option String × List HistoryEvent :=
  let stale := (ss.filter (fun p => now - p.2.lastHeartbeat > HEARTBEAT_TIMEOUT_MS)).map Prod.fst
  let ss' := ss.filter (fun p => ¬ stale.contains p.1)
  let evicted := ss.filter (fun p => stale.contains p.1)
  let hist' :=
    if stale.isEmpty then hist
    else trimHistory (hist ++ evicted.map (fun p => disconnectEvent now p.2))
  (ss', masterId, hist')

/-- The conductor validity invariant of the specification: a non-null master
session-id refers to an existing session holding an access token. -/
def masterValid (ss : Sessions) (masterId : Option String) : Bool :=
  match masterId with
  | none => true
  | some m =>
    match List.lookup m ss with
    | some r => sessHasToken r
    | none => false

/-- loadHistoryFromFile of index.ts: keep the last MAX_HISTORY_EVENTS events
of the persisted array (slice(-500)). -/
def loadHistoryFromFile (file : List HistoryEvent) : List HistoryEvent :=
  file.drop (file.length - MAX_HISTORY_EVENTS)

/-- The system restart event pushed by the startup sequence. -/
def restartEvent (now : Nat) : HistoryEvent :=
  { type := .user_connected, timestamp := now, userName := "System",
    userEmail := "system@server", details := "restart" }

/-- The history ledger at the end of the startup sequence: the loaded file
contents followed by the restart event, with no intervening broadcast. -/
def startupHistory (file : List HistoryEvent) (now : Nat) : List HistoryEvent :=
  loadHistoryFromFile file ++ [restartEvent now]

/-- The history payload sent by broadcastHistory: trim to 500, send the last
100 events. -/
def broadcastHistoryPayload (h : List HistoryEvent) : List HistoryEvent :=
  let t := trimHistory h
  t.drop (t.length - 100)

/-- The play-history payload sent by broadcastPlayHistory and returned to a
get_play_history request: the last 100 entries. -/
def playHistoryPayload (ph : List PlayHistoryEntry) : List PlayHistoryEntry :=
  ph.drop (ph.length - 100)

/-- The guarded insertion of the POST /api/tracks track branch: the duplicate
check (hasTrack), then fair insertion. -/
def submitTrackStep (qm : QM) (t : SubmittedTrack) : QM :=
  if hasTrack qm.submitted t.spotifyUri then qm
  else { qm with submitted := fairInsertTrack qm.submitted t }

/-- Increment of the jamCounts entry of the acting email (the migrate-then-
increment of the jam handler; the legacy jammers array is already migrated in
this model). -/
def bumpJam (jammerEmail : String) (t : SubmittedTrack) : SubmittedTrack :=
  { t with jamCounts :=
      match t.jamCounts.lookup jammerEmail with
      | some n => t.jamCounts.map (fun p => if p.1 == jammerEmail then (p.1, n + 1) else p)
      | none => t.jamCounts ++ [(jammerEmail, 1)] }

/-- The jam case of index.ts restricted to its effect on the two queue tiers:
a fallback track that is not currently playing is promoted into the submitted
queue (guarded by hasTrack) as if submitted by the jammer with one jam;
otherwise only the jamCounts of the matching submitted track change. -/
def jamStep (qm : QM) (currentUri : Option String)
    (uri jammerEmail jammerName : String) (now : Nat) : QM :=
  if jammerEmail = "" then qm
  else
    match qm.fallback.find? (fun t => t.spotifyUri == uri) with
    | some fbTrack =>
      if currentUri ≠ some uri then
        if ¬ hasTrack qm.submitted uri then
          { submitted := fairInsertTrack qm.submitted
              { spotifyUri := fbTrack.spotifyUri,
                userEmail := some jammerEmail,
                spotifyName := some jammerName,
                timestamp := now,
                name := some ((fbTrack.name).getD ""),
                artist := some ((fbTrack.artist).getD ""),
                album := some ((fbTrack.album).getD ""),
                albumArtUrl := some ((fbTrack.albumArtUrl).getD ""),
                jamCounts := [(jammerEmail, 1)] },
            fallback := (removeFallbackTrack qm.fallback uri).2 }
        else qm
      else
        { qm with submitted :=
            qm.submitted.map (fun t => if t.spotifyUri == uri then bumpJam jammerEmail t else t) }
    | none =>
      { qm with submitted :=
          qm.submitted.map (fun t => if t.spotifyUri == uri then bumpJam jammerEmail t else t) }

/-- The master-random-liked bulk add: each fetched track runs through the
duplicate check before fair insertion. -/
def addRandomLiked (qm : QM) (ts : List SubmittedTrack) : QM :=
  ts.foldl submitTrackStep qm

/-- The public operations that touch the queue tiers. -/
inductive QueueOp
  | submit (t : SubmittedTrack)
  | jam (currentUri : Option String) (uri jammerEmail jammerName : String) (now : Nat)
  | randomLiked (ts : List SubmittedTrack)
  | remove (uri : String)
  | delay (uri : String)
  | consume (isFallback : Bool)

/-- Apply one public queue operation. -/
def applyOp (qm : QM) : QueueOp → QM
  | .submit t => submitTrackStep qm t
  | .jam cu uri je jn now => jamStep qm cu uri je jn now
  | .randomLiked ts => addRandomLiked qm ts
  | .remove uri => { qm with submitted := (removeTrack qm.submitted uri).2 }
  | .delay uri => { qm with submitted := (moveTrackBackOne qm.submitted uri).2 }
  | .consume isFb => consumeNextTrack qm isFb

/-- Apply a sequence of public queue operations. -/
def applyOps (ops : List QueueOp) (qm : QM) : QM :=
  ops.foldl applyOp qm

/-- The uniqueness invariant: no two submitted entries share a provider URI. -/
def uriNodup (qm : QM) : Prop :=
  (qm.submitted.map (fun t => t.spotifyUri)).Nodup

/-- The fresh QueueManager state of a newly started server. -/
def emptyQM : QM :=
  { submitted := [], fallback := [] }

/-! Generic list lemmas used by several developments below. -/

theorem findIdxQ_none_of_all {α : Type} (p : α → Bool) :
    ∀ (l : List α) (i : Nat), (∀ x ∈ l, p x = false) → List.findIdx? p l i = none := by
  intro l
  induction l with
  | nil => intro i _; rfl
  | cons a as ih =>
    intro i h
    rw [List.findIdx?_cons, h a (by simp)]
    simp only [Bool.false_eq_true, if_false]
    exact ih (i + 1) (fun x hx => h x (by simp [hx]))

theorem findIdxQ_append_first {α : Type} (p : α → Bool) (t : α) (r : List α) (ht : p t = true) :
    ∀ (l : List α) (i : Nat), (∀ x ∈ l, p x = false) →
      List.findIdx? p (l ++ t :: r) i = some (i + l.length) := by
  intro l
  induction l with
  | nil => intro i _; simp [List.findIdx?_cons, ht]
  | cons a as ih =>
    intro i h
    rw [List.cons_append, List.findIdx?_cons, h a (by simp)]
    simp only [Bool.false_eq_true, if_false]
    rw [ih (i + 1) (fun x hx => h x (by simp [hx]))]
    simp [Nat.add_assoc, Nat.add_comm 1 as.length]

theorem getQ_append_middle {α : Type} (t : α) (r : List α) :
    ∀ (l : List α), (l ++ t :: r).get? l.length = some t := by
  intro l
  induction l with
  | nil => rfl
  | cons a as ih => simpa using ih

theorem eraseIdx_append_middle {α : Type} (t : α) (r : List α) :
    ∀ (l : List α), (l ++ t :: r).eraseIdx l.length = l ++ r := by
  intro l
  induction l with
  | nil => rfl
  | cons a as ih => simpa [List.eraseIdx] using ih

/-- C10. removeTrack atomicity: an absent URI returns null and leaves the
queue untouched; a present URI removes exactly the first entry carrying it,
returns that entry, and keeps every other entry in its relative order (the
result is the left part followed by the right part, both unchanged). -/
theorem removeTrack_spec (q : List SubmittedTrack) (uri : String) :
    ((∀ t ∈ q, t.spotifyUri ≠ uri) → removeTrack q uri = (none, q))
    ∧ (∀ (l r : List SubmittedTrack) (t : SubmittedTrack),
        q = l ++ t :: r → t.spotifyUri = uri → (∀ x ∈ l, x.spotifyUri ≠ uri) →
        removeTrack q uri = (some t, l ++ r)) := by
  constructor
  · intro h
    unfold removeTrack
    rw [findIdxQ_none_of_all _ q 0 (fun x hx => by
      have := h x hx
      simp [this])]
  · intro l r t hq ht hl
    subst hq
    unfold removeTrack
    rw [findIdxQ_append_first (fun t => t.spotifyUri == uri) t r (by simp [ht]) l 0
      (fun x hx => by
        have := hl x hx
        simp [this])]
    simp only [Nat.zero_add]
    rw [getQ_append_middle, eraseIdx_append_middle]

/-- C10 witness: the theorem applied to a concrete two-element queue. -/
theorem removeTrack_spec_witness :
    removeTrack [{ spotifyUri := "spotify:track:a", userEmail := none, spotifyName := none,
                   timestamp := 0 },
                 { spotifyUri := "spotify:track:b", userEmail := none, spotifyName := none,
                   timestamp := 1 }] "spotify:track:b" =
      (some { spotifyUri := "spotify:track:b", userEmail := none, spotifyName := none,
              timestamp := 1 },
       [{ spotifyUri := "spotify:track:a", userEmail := none, spotifyName := none,
          timestamp := 0 }]) :=
  (removeTrack_spec _ "spotify:track:b").2
    [{ spotifyUri := "spotify:track:a", userEmail := none, spotifyName := none, timestamp := 0 }]
    [] _ rfl rfl (by decide)

/-- Persisted history file holding exactly MAX_HISTORY_EVENTS events. -/
def fullHistoryFile : List HistoryEvent :=
  List.replicate MAX_HISTORY_EVENTS (restartEvent 0)

/-- C9 counterexample: when the persisted file already holds 500 events, the
startup sequence (load, then push the restart event with no intervening
broadcast) leaves the in-memory ledger at 501 events, so the bound of 500
does not hold at every quiescent state. -/
theorem history_bound_counterexample :
    (startupHistory fullHistoryFile 1).length = MAX_HISTORY_EVENTS + 1
    ∧ ¬ (startupHistory fullHistoryFile 1).length ≤ MAX_HISTORY_EVENTS := by
  have h : (startupHistory fullHistoryFile 1).length = MAX_HISTORY_EVENTS + 1 := by
    simp [startupHistory, loadHistoryFromFile, fullHistoryFile]
  exact ⟨h, by rw [h]; omega⟩

/-- C9 (amended). Every broadcastHistory call first trims the ledger to at
most 500 events, every history payload and play-history payload sent or
returned to a client holds at most 100 entries, and the startup sequence
leaves at most 501 events (the loaded at-most-500 plus the restart event). -/
theorem history_bounds_amended (h : List HistoryEvent) (ph : List PlayHistoryEntry)
    (file : List HistoryEvent) (now : Nat) :
    (trimHistory h).length ≤ MAX_HISTORY_EVENTS
    ∧ (broadcastHistoryPayload h).length ≤ 100
    ∧ (playHistoryPayload ph).length ≤ 100
    ∧ (startupHistory file now).length ≤ MAX_HISTORY_EVENTS + 1 := by
  have htrim : (trimHistory h).length ≤ MAX_HISTORY_EVENTS := by
    unfold trimHistory
    split
    · simp only [List.length_drop]; omega
    · omega
  refine ⟨htrim, ?_, ?_, ?_⟩
  · unfold broadcastHistoryPayload
    simp only [List.length_drop]
    omega
  · unfold playHistoryPayload
    simp only [List.length_drop]
    omega
  · unfold startupHistory loadHistoryFromFile
    simp only [List.length_append, List.length_drop, List.length_singleton]
    omega

/-- The conductor session evicted by the stale cleanup in the C8 scenario. -/
def c8Session : SessionRec :=
  { spotify := some { name := "Master", email := "m@x.com",
                      access_token := "tok", refresh_token := "r" },
    listener := none, lastHeartbeat := 0 }

/-- Session map of the C8 scenario: the conductor alone, long silent. -/
def c8Sessions : Sessions := [("s1", c8Session)]

/-- C8. The conductor validity invariant is not preserved by the stale
session cleanup: with the conductor session stale, cleanupStaleSessions
deletes it from the map but leaves masterUserSessionId pointing at it, so
afterwards the conductor session-id refers to no existing session. -/
theorem cleanup_breaks_master_validity :
    masterValid c8Sessions (some "s1") = true
    ∧ 70000 - c8Session.lastHeartbeat > HEARTBEAT_TIMEOUT_MS
    ∧ (cleanupStaleSessions c8Sessions (some "s1") [] 70000).1 = []
    ∧ (cleanupStaleSessions c8Sessions (some "s1") [] 70000).2.1 = some "s1"
    ∧ masterValid (cleanupStaleSessions c8Sessions (some "s1") [] 70000).1
        (cleanupStaleSessions c8Sessions (some "s1") [] 70000).2.1 = false := by
  decide

/-- Room state with every field at its server-start value (the module-level
initialisers of index.ts, queues empty). -/
def baseState : ServerState :=
  { submitted := [], fallback := [], mode := .masterPause,
    currentlyPlayingTrack := none, currentTrackIsFallback := false,
    currentTrackConsumed := false, masterUserSessionId := none,
    lastMasterPlaybackState := none, masterTrackStarted := false,
    lastPlaybackState := none, lastTrackChangeCommand := 0,
    lastManualSkipAt := 0, playbackFailureCheckTime := 0,
    expectedPlayingUri := none, history := [], playHistory := [] }

/-- Track X playing in the C3 scenario. -/
def c3X : SubmittedTrack :=
  { spotifyUri := "spotify:track:x", userEmail := some "u1@x.com",
    spotifyName := some "U1", timestamp := 0 }

/-- Track Y queued in the C3 scenario. -/
def c3Y : SubmittedTrack :=
  { spotifyUri := "spotify:track:y", userEmail := some "u2@x.com",
    spotifyName := some "U2", timestamp := 1 }

/-- Room state of the C3 scenario: the conductor is master-session, the mode
is playing, X is current and Y queued. -/
def c3s : ServerState :=
  { baseState with mode := .masterPlay,
                   masterUserSessionId := some "master-session",
                   currentlyPlayingTrack := some c3X,
                   submitted := [c3Y] }

/-- Command environment of the C3 scenario. -/
def c3i : CommandInput :=
  { now := 100000, tokenPresent := true, reload := none,
    masterName := some "M", masterEmail := "m@x.com" }

/-- C3 counterexample: a master_skip sent by a session that is not the
conductor is processed all the same - the current track changes from X to Y
and the play history grows - so the server does not reject the command and
does not leave the room state unchanged. -/
theorem conductor_only_counterexample :
    c3s.masterUserSessionId = some "master-session"
    ∧ "intruder-session" ≠ "master-session"
    ∧ c3s.currentlyPlayingTrack = some c3X
    ∧ (masterSkipStep c3s "intruder-session" c3i).1.currentlyPlayingTrack = some c3Y
    ∧ c3X ≠ c3Y
    ∧ (masterSkipStep c3s "intruder-session" c3i).1.playHistory ≠ c3s.playHistory := by
  refine ⟨rfl, by decide, rfl, rfl, by decide, by decide⟩

/-- C3 (amended). The live master_skip case never inspects the sender
session-id: the handler computes the same state and outputs for any two
senders (the only conductor check sits in the later duplicate case label,
which a switch statement never reaches). master_play and master_pause carry
no session-id at all, which the signatures of masterPlayStep and
masterPauseStep reflect. -/
theorem masterSkip_sender_irrelevant (s : ServerState) (sid1 sid2 : String)
    (i : CommandInput) :
    masterSkipStep s sid1 i = masterSkipStep s sid2 i := rfl

/-! Lemmas about peekNextTrack used by the failure, advance and skip paths. -/

theorem peek_submitted_eq (qm : QM) (tok : Bool) (rel : Option (List SubmittedTrack)) :
    (peekNextTrack qm tok rel).2.submitted = qm.submitted := by
  unfold peekNextTrack
  rcases qm with ⟨sub, fb⟩
  cases sub with
  | cons t ts => rfl
  | nil =>
    cases fb with
    | cons t ts => rfl
    | nil =>
      cases tok
      · rfl
      · cases rel with
        | none => rfl
        | some ts => cases ts <;> rfl

theorem peek_qm_eq (qm : QM) (tok : Bool) (rel : Option (List SubmittedTrack))
    (h : qm.submitted ≠ [] ∨ qm.fallback ≠ []) :
    (peekNextTrack qm tok rel).2 = qm := by
  unfold peekNextTrack
  rcases qm with ⟨sub, fb⟩
  cases sub with
  | cons t ts => rfl
  | nil =>
    cases fb with
    | cons t ts => rfl
    | nil => simp at h

theorem peek_fallback_eq (qm : QM) (tok : Bool) (rel : Option (List SubmittedTrack))
    (h : qm.submitted ≠ [] ∨ qm.fallback ≠ [] ∨ rel = none) :
    (peekNextTrack qm tok rel).2.fallback = qm.fallback := by
  unfold peekNextTrack
  rcases qm with ⟨sub, fb⟩
  cases sub with
  | cons t ts => rfl
  | nil =>
    cases fb with
    | cons t ts => rfl
    | nil =>
      cases tok
      · rfl
      · cases rel with
        | none => rfl
        | some ts => simp at h

theorem peek_sub_cons (qm : QM) (tok : Bool) (rel : Option (List SubmittedTrack))
    (t : SubmittedTrack) (rest : List SubmittedTrack) (h : qm.submitted = t :: rest) :
    peekNextTrack qm tok rel = (some (t, false), qm) := by
  unfold peekNextTrack
  rw [h]

theorem peek_fb_cons (qm : QM) (tok : Bool) (rel : Option (List SubmittedTrack))
    (t : SubmittedTrack) (rest : List SubmittedTrack)
    (hs : qm.submitted = []) (h : qm.fallback = t :: rest) :
    peekNextTrack qm tok rel = (some (t, true), qm) := by
  unfold peekNextTrack
  rw [hs, h]

/-- C4 (amended). When a nomination is pending and more than 5000 ms have
passed with the polled state not showing the expected URI playing, the
failure handler emits playback_error, leaves the user-submitted queue
unchanged, leaves the fallback queue unchanged unless both tiers were empty
and a reload succeeds, adopts exactly the peek-nominated head as the new
current track (clearing it when nothing is peekable), and commands playback
of that track; nothing is consumed from either tier. -/
theorem playback_failure_amended (s : ServerState) (now : Nat) (curr : Snapshot)
    (tok : Bool) (rel : Option (List SubmittedTrack)) (exp : String)
    (h1 : s.expectedPlayingUri = some exp)
    (h2 : s.playbackFailureCheckTime > 0)
    (h3 : now - s.playbackFailureCheckTime > PLAYBACK_FAILURE_TIMEOUT_MS)
    (h4 : curr.uri ≠ some exp ∨ curr.is_playing ≠ some true) :
    Out.playbackError ∈ (failurePhase s now curr tok rel).2
    ∧ (failurePhase s now curr tok rel).1.submitted = s.submitted
    ∧ (s.submitted ≠ [] ∨ s.fallback ≠ [] ∨ rel = none →
        (failurePhase s now curr tok rel).1.fallback = s.fallback)
    ∧ (failurePhase s now curr tok rel).1.currentlyPlayingTrack =
        ((peekNextTrack ⟨s.submitted, s.fallback⟩ tok rel).1).map Prod.fst
    ∧ (∀ tb, (peekNextTrack ⟨s.submitted, s.fallback⟩ tok rel).1 = some tb →
        Out.playCommand tb.1.spotifyUri ∈ (failurePhase s now curr tok rel).2) := by
  unfold failurePhase
  rw [h1]
  dsimp only
  rw [if_pos h2, if_pos h3, if_pos h4]
  rcases hpk : (peekNextTrack ⟨s.submitted, s.fallback⟩ tok rel).1 with _ | tb
  · simp only [hpk]
    refine ⟨by simp, ?_, ?_, by simp, ?_⟩
    · simpa using peek_submitted_eq ⟨s.submitted, s.fallback⟩ tok rel
    · intro h5
      simpa using peek_fallback_eq ⟨s.submitted, s.fallback⟩ tok rel (by simpa using h5)
    · intro tb htb
      cases htb
  · simp only [hpk]
    refine ⟨by simp, ?_, ?_, by simp, ?_⟩
    · simpa using peek_submitted_eq ⟨s.submitted, s.fallback⟩ tok rel
    · intro h5
      simpa using peek_fallback_eq ⟨s.submitted, s.fallback⟩ tok rel (by simpa using h5)
    · intro tb' htb
      have he : tb = tb' := Option.some.inj htb
      subst he
      simp

/-- Playback snapshot observed in the C4 scenarios: some other track. -/
def c4snap : Snapshot :=
  { uri := some "spotify:track:other", progress_ms := some 0,
    duration_ms := some 1000, is_playing := some true }

/-- Room state of the C4 counterexample: nomination pending, both tiers
empty (the nominated entry was removed by a user after nomination). -/
def c4s : ServerState :=
  { baseState with mode := .masterPlay,
                   expectedPlayingUri := some "spotify:track:x",
                   playbackFailureCheckTime := 1 }

/-- Fallback track fetched by the reload in the C4 counterexample. -/
def c4K : SubmittedTrack :=
  { spotifyUri := "spotify:track:k", userEmail := some "fallback@system",
    spotifyName := some "List", timestamp := 0 }

/-- C4 counterexample: on a playback-failure tick with both tiers empty and
a configured playlist reachable through the master token, the peek performed
by the failure handler repopulates the fallback queue, so the claim that
both queue tiers are left unchanged is false. -/
theorem playback_failure_counterexample :
    c4s.expectedPlayingUri = some "spotify:track:x"
    ∧ c4s.playbackFailureCheckTime > 0
    ∧ 7000 - c4s.playbackFailureCheckTime > PLAYBACK_FAILURE_TIMEOUT_MS
    ∧ c4snap.uri ≠ some "spotify:track:x"
    ∧ c4s.fallback = []
    ∧ (failurePhase c4s 7000 c4snap true (some [c4K])).1.fallback = [c4K] := by
  refine ⟨rfl, by decide, by decide, by decide, rfl, rfl⟩

/-- C4 witness: the amended theorem applied to the counterexample inputs. -/
theorem playback_failure_amended_witness :
    Out.playbackError ∈ (failurePhase c4s 7000 c4snap true (some [c4K])).2
    ∧ (failurePhase c4s 7000 c4snap true (some [c4K])).1.submitted = c4s.submitted :=
  ⟨(playback_failure_amended c4s 7000 c4snap true (some [c4K]) "spotify:track:x"
      rfl (by decide) (by decide) (by decide)).1,
   (playback_failure_amended c4s 7000 c4snap true (some [c4K]) "spotify:track:x"
      rfl (by decide) (by decide) (by decide)).2.1⟩

/-- C5 (amended). For an observed play-to-pause transition (previous state
play, polled is_playing false) while the server mode is playing: within the
grace window the mode is not flipped and the state changes only by recording
the observed play state; when the track has been marked started and stands
at 100 percent the pause is likewise ignored (the completion logic advances
instead); and the mode flips to paused exactly when the transition is outside
the grace window and not a completed started track. -/
theorem observed_pause_amended (s : ServerState) (i : PollInput)
    (hmode : s.mode = .masterPlay)
    (hlast : s.lastMasterPlaybackState = some .play) :
    ((transitionPhase s i .pause).1.mode = .masterPause ↔
      (TRACK_CHANGE_GRACE_PERIOD_MS ≤ i.now - s.lastTrackChangeCommand ∧
       ¬ (s.masterTrackStarted = true ∧ progressComplete s = true)))
    ∧ (i.now - s.lastTrackChangeCommand < TRACK_CHANGE_GRACE_PERIOD_MS →
        (transitionPhase s i .pause).1 = { s with lastMasterPlaybackState := some .pause })
    ∧ (s.masterTrackStarted = true → progressComplete s = true →
        (transitionPhase s i .pause).1 = { s with lastMasterPlaybackState := some .pause }) := by
  unfold transitionPhase
  rw [if_pos (by rw [hlast]; simp)]
  rw [if_neg (by simp)]
  rw [if_pos (by constructor; rfl; rw [hmode]; simp)]
  by_cases hg : i.now - s.lastTrackChangeCommand < TRACK_CHANGE_GRACE_PERIOD_MS
  · rw [if_pos hg]
    refine ⟨?_, fun _ => rfl, fun h1 h2 => rfl⟩
    constructor
    · intro h
      rw [hmode] at h
      cases h
    · intro h
      omega
  · rw [if_neg hg]
    by_cases hc : ({ s with lastMasterPlaybackState := some PlayState.pause } : ServerState).masterTrackStarted ∧ progressComplete { s with lastMasterPlaybackState := some PlayState.pause }
    · rw [if_pos hc]
      have hc' : s.masterTrackStarted = true ∧ progressComplete s = true := by
        rcases hc with ⟨a, b⟩
        exact ⟨a, by simpa [progressComplete] using b⟩
      refine ⟨?_, fun h => absurd h hg, fun _ _ => rfl⟩
      constructor
      · intro h
        rw [hmode] at h
        cases h
      · intro h
        exact absurd hc' h.2
    · rw [if_neg hc]
      have hc' : ¬ (s.masterTrackStarted = true ∧ progressComplete s = true) := by
        intro h
        exact hc ⟨h.1, by simpa [progressComplete] using h.2⟩
      refine ⟨?_, fun h => absurd h hg, fun h1 h2 => absurd ⟨h1, h2⟩ hc'⟩
      exact ⟨fun _ => ⟨by omega, hc'⟩, fun _ => rfl⟩

/-- The track playing in the C5 counterexample. -/
def c5X : SubmittedTrack :=
  { spotifyUri := "spotify:track:x", userEmail := some "u1@x.com",
    spotifyName := some "U1", timestamp := 0 }

/-- Room state of the C5 counterexample: playing, observed state play, the
nominated track never observed as started (masterTrackStarted false), last
commanded change long past. -/
def c5s : ServerState :=
  { baseState with mode := .masterPlay,
                   currentlyPlayingTrack := some c5X,
                   lastMasterPlaybackState := some .play,
                   masterTrackStarted := false,
                   lastPlaybackState := some
                     { uri := some "spotify:track:x", progress_ms := some 500,
                       duration_ms := some 1000, is_playing := some true } }

/-- Poll input of the C5 counterexample: the same track at exactly 100
percent progress with is_playing now false. -/
def c5i : PollInput :=
  { now := 10000, tokenPresent := true,
    snap := { uri := some "spotify:track:x", progress_ms := some 1000,
              duration_ms := some 1000, is_playing := some false },
    reload := none, masterName := some "M" }

/-- C5 counterexample: an observed play-to-pause transition outside the
grace window while the polled progress stands at exactly 100 percent flips
the mode to paused (because the track was never marked started), so a track
at exactly 100 percent is not always treated as ended instead of paused. -/
theorem observed_pause_counterexample :
    c5s.lastMasterPlaybackState = some .play
    ∧ c5i.snap.is_playing = some false
    ∧ c5i.snap.progress_ms = c5i.snap.duration_ms
    ∧ TRACK_CHANGE_GRACE_PERIOD_MS ≤ c5i.now - c5s.lastTrackChangeCommand
    ∧ (pollStep c5s c5i).1.mode = .masterPause := by
  refine ⟨rfl, rfl, rfl, by decide, ?_⟩
  rfl

/-- C5 witness: the amended theorem applied inside the grace window at a
concrete state, showing the pause observation does not flip the mode. -/
theorem observed_pause_amended_witness :
    (transitionPhase c5s { c5i with now := c5s.lastTrackChangeCommand + 1 } .pause).1 =
      { c5s with lastMasterPlaybackState := some .pause } :=
  (observed_pause_amended c5s { c5i with now := c5s.lastTrackChangeCommand + 1 }
    rfl rfl).2.1 (by decide)

/-! Lemmas on the fair-insertion index computation. -/

theorem lastLoop_ge_acc (u : String) :
    ∀ (l : List SubmittedTrack) (i acc : Nat), acc ≤ i → acc ≤ lastUserIdxLoop u l i acc := by
  intro l
  induction l with
  | nil => intro i acc _; simp [lastUserIdxLoop]
  | cons t ts ih =>
    intro i acc hai
    rw [lastUserIdxLoop]
    by_cases hm : (t.userEmail == some u) = true
    · rw [if_pos hm]
      exact le_trans (by omega) (ih (i + 1) (i + 1) (le_refl _))
    · rw [if_neg hm]
      exact ih (i + 1) acc (by omega)

theorem lastLoop_ge_match (u : String) :
    ∀ (l : List SubmittedTrack) (i acc j : Nat) (x : SubmittedTrack), acc ≤ i →
      l.get? j = some x → (x.userEmail == some u) = true →
      i + j + 1 ≤ lastUserIdxLoop u l i acc := by
  intro l
  induction l with
  | nil => intro i acc j x _ hj _; simp at hj
  | cons t ts ih =>
    intro i acc j x hai hj hx
    rw [lastUserIdxLoop]
    cases j with
    | zero =>
      simp only [List.get?] at hj
      cases hj
      rw [if_pos hx]
      simpa using lastLoop_ge_acc u ts (i + 1) (i + 1) (le_refl _)
    | succ j' =>
      simp only [List.get?] at hj
      have hstep : ∀ acc', acc' ≤ i + 1 →
          i + 1 + j' + 1 ≤ lastUserIdxLoop u ts (i + 1) acc' :=
        fun acc' ha' => ih (i + 1) acc' j' x ha' hj hx
      by_cases hm : (t.userEmail == some u) = true
      · rw [if_pos hm]
        have := hstep (i + 1) (le_refl _)
        omega
      · rw [if_neg hm]
        have := hstep acc (by omega)
        omega

theorem insertAt_get_lt {α : Type} (n j : Nat) (a : α) (l : List α)
    (hjn : j < n) (hjl : j < l.length) :
    (insertAt n a l).get? j = l.get? j := by
  unfold insertAt
  rw [List.get?_append (by simp; omega)]
  exact List.get?_take hjn

/-- Position of the n-th (1-based) track of user u in a queue. -/
def nthUserTrackIdx (q : List SubmittedTrack) (u : String) (n : Nat) : Option Nat :=
  ((q.enum.filter (fun p => p.2.userEmail == some u)).get? (n - 1)).map Prod.fst

/-- Track of the fair-insertion scenarios: a URI submitted by a user. -/
def exTrack (uri u : String) : SubmittedTrack :=
  { spotifyUri := uri, userEmail := some u, spotifyName := none, timestamp := 0 }

/-- The pre-state queue of the fair-insertion regression scenario. -/
def scenarioQueue : List SubmittedTrack :=
  [exTrack "A1" "u1", exTrack "B1" "u2", exTrack "A2" "u1",
   exTrack "B2" "u2", exTrack "A3" "u1"]

/-- Queue refuting the universally quantified sandwich property: user u1
holds three tracks, user u2 one (such a shape arises from removals or
delay_track reorderings). -/
def cexQueue : List SubmittedTrack :=
  [exTrack "A1" "u1", exTrack "A2" "u1", exTrack "A3" "u1", exTrack "B1" "u2"]

/-- C1 counterexample: on the queue [A1 A2 A3 B1], user u2 (k = 1 existing
track) submits B2; the algorithm appends it at index 4, after u1 third
track at index 2, so the claimed property that the (k+1)-th submission of B
lands before the (k+2)-th existing track of A fails on this queue. -/
theorem fairInsert_sandwich_counterexample :
    userCount cexQueue "u2" = 1
    ∧ userCount cexQueue "u1" = 3
    ∧ (fairInsertTrack cexQueue (exTrack "B2" "u2")).map (fun t => t.spotifyUri) =
        ["A1", "A2", "A3", "B1", "B2"]
    ∧ nthUserTrackIdx (fairInsertTrack cexQueue (exTrack "B2" "u2")) "u1" 2 = some 1
    ∧ nthUserTrackIdx (fairInsertTrack cexQueue (exTrack "B2" "u2")) "u1" 3 = some 2
    ∧ (fairInsertTrack cexQueue (exTrack "B2" "u2")).findIdx?
        (fun t => t.spotifyUri == "B2") = some 4
    ∧ ¬ (4 < 2) := by
  decide

/-- C1 (amended). For a submission with a present submitter email the
algorithm inserts at max(lastUserIdx + 1, boundaryIdx + 1); the new track
always lands strictly after every existing track of the same submitter, so
each user's internal submission order is preserved; and on the round-robin
queue of the regression scenario the stated post-states hold exactly:
inserting C1 by u3 yields [A1 B1 C1 A2 B2 A3] and a subsequent C2 yields
[A1 B1 C1 A2 B2 C2 A3]. The sandwich property holds there but not on every
queue (see the counterexample). -/
theorem fairInsert_amended (q : List SubmittedTrack) (t : SubmittedTrack) (e : String)
    (he : t.userEmail = some e) (hne : e ≠ "") :
    fairInsertTrack q t =
      insertAt (max (lastUserIdxPlusOne q e)
                    (boundaryIdxPlusOne q (joinOrder q) (userCount q e + 1))) t q
    ∧ (∀ j x, q.get? j = some x → x.userEmail = some e →
        (fairInsertTrack q t).get? j = some x
        ∧ j < max (lastUserIdxPlusOne q e)
                  (boundaryIdxPlusOne q (joinOrder q) (userCount q e + 1)))
    ∧ (fairInsertTrack scenarioQueue (exTrack "C1" "u3")).map (fun x => x.spotifyUri) =
        ["A1", "B1", "C1", "A2", "B2", "A3"]
    ∧ (fairInsertTrack (fairInsertTrack scenarioQueue (exTrack "C1" "u3"))
        (exTrack "C2" "u3")).map (fun x => x.spotifyUri) =
        ["A1", "B1", "C1", "A2", "B2", "C2", "A3"] := by
  have heq : fairInsertTrack q t =
      insertAt (max (lastUserIdxPlusOne q e)
                    (boundaryIdxPlusOne q (joinOrder q) (userCount q e + 1))) t q := by
    unfold fairInsertTrack
    rw [he]
    dsimp only
    rw [if_neg (by simp [hne])]
  refine ⟨heq, ?_, by decide, by decide⟩
  intro j x hj hx
  have hjlt : j < max (lastUserIdxPlusOne q e)
      (boundaryIdxPlusOne q (joinOrder q) (userCount q e + 1)) := by
    have h1 : j + 1 ≤ lastUserIdxPlusOne q e := by
      have := lastLoop_ge_match e q 0 0 j x (le_refl _) hj (by simp [hx])
      unfold lastUserIdxPlusOne
      omega
    omega
  have hjl : j < q.length := by
    by_contra hge
    push_neg at hge
    rw [List.get?_eq_none.mpr hge] at hj
    cases hj
  exact ⟨by rw [heq]; rw [insertAt_get_lt _ _ _ _ hjlt hjl]; exact hj, hjlt⟩

/-- C1 witness: the amended theorem applied to the regression scenario,
checking the insertion equation and that u3 earlier track C1 stays in place
before the new C2. -/
theorem fairInsert_amended_witness :
    (fairInsertTrack (fairInsertTrack scenarioQueue (exTrack "C1" "u3"))
        (exTrack "C2" "u3")).get? 2 = some (exTrack "C1" "u3") :=
  ((fairInsert_amended (fairInsertTrack scenarioQueue (exTrack "C1" "u3"))
      (exTrack "C2" "u3") "u3" rfl (by decide)).2.1 2 (exTrack "C1" "u3")
      (by decide) rfl).1

/-! The queue-uniqueness invariant (C6). -/

theorem insertAt_perm {α : Type} (n : Nat) (a : α) (l : List α) :
    (insertAt n a l).Perm (a :: l) := by
  unfold insertAt
  have h := @List.perm_middle _ a (l.take n) (l.drop n)
  rwa [List.take_append_drop] at h

theorem insertAt_map {α β : Type} (f : α → β) (n : Nat) (a : α) (l : List α) :
    (insertAt n a l).map f = insertAt n (f a) (l.map f) := by
  simp [insertAt, List.map_take, List.map_drop]

theorem fairInsert_insertAt (q : List SubmittedTrack) (t : SubmittedTrack) :
    ∃ n, fairInsertTrack q t = insertAt n t q := by
  unfold fairInsertTrack
  cases t.userEmail with
  | none => exact ⟨q.length, by simp [insertAt]⟩
  | some e =>
    dsimp only
    by_cases h : (e == "") = true
    · rw [if_pos h]
      exact ⟨q.length, by simp [insertAt]⟩
    · rw [if_neg h]
      exact ⟨_, rfl⟩

theorem uriNodup_fairInsert (q : List SubmittedTrack) (t : SubmittedTrack)
    (hn : (q.map (fun x => x.spotifyUri)).Nodup)
    (hmem : t.spotifyUri ∉ q.map (fun x => x.spotifyUri)) :
    ((fairInsertTrack q t).map (fun x => x.spotifyUri)).Nodup := by
  obtain ⟨n, h⟩ := fairInsert_insertAt q t
  rw [h, insertAt_map]
  exact ((insertAt_perm n _ _).nodup_iff).mpr (List.nodup_cons.mpr ⟨hmem, hn⟩)

theorem hasTrack_eq_false (q : List SubmittedTrack) (u : String)
    (h : ¬ hasTrack q u = true) : u ∉ q.map (fun x => x.spotifyUri) := by
  simp only [hasTrack, List.any_eq_true, not_exists, not_and] at h
  simp only [List.mem_map, not_exists, not_and]
  intro x hx heq
  exact absurd (by simp [heq]) (h x hx)

theorem submitStep_nodup (qm : QM) (t : SubmittedTrack) (h : uriNodup qm) :
    uriNodup (submitTrackStep qm t) := by
  unfold submitTrackStep
  by_cases hh : hasTrack qm.submitted t.spotifyUri = true
  · rw [if_pos hh]; exact h
  · rw [if_neg hh]
    exact uriNodup_fairInsert _ _ h (hasTrack_eq_false _ _ hh)

theorem map_uri_bump (l : List SubmittedTrack) (uri je : String) :
    ((l.map (fun t => if t.spotifyUri == uri then bumpJam je t else t)).map
      (fun x => x.spotifyUri)) = l.map (fun x => x.spotifyUri) := by
  induction l with
  | nil => rfl
  | cons t ts ih =>
    simp only [List.map_cons]
    rw [ih]
    congr 1
    by_cases h : (t.spotifyUri == uri) = true
    · simp [h, bumpJam]
    · simp [h]

theorem jamStep_nodup (qm : QM) (cu : Option String) (uri je jn : String) (now : Nat)
    (h : uriNodup qm) : uriNodup (jamStep qm cu uri je jn now) := by
  unfold jamStep
  by_cases hje : je = ""
  · rw [if_pos hje]; exact h
  · rw [if_neg hje]
    cases hf : qm.fallback.find? (fun t => t.spotifyUri == uri) with
    | none =>
      unfold uriNodup
      simp only
      rw [map_uri_bump]
      exact h
    | some fbTrack =>
      dsimp only
      by_cases hcu : cu ≠ some uri
      · rw [if_pos hcu]
        by_cases hh : hasTrack qm.submitted uri = true
        · rw [if_neg (by simpa using hh)]; exact h
        · rw [if_pos (by simpa using hh)]
          unfold uriNodup
          simp only
          apply uriNodup_fairInsert _ _ h
          have huri : fbTrack.spotifyUri = uri := by
            have := List.find?_some hf
            simpa using this
          simpa [huri] using hasTrack_eq_false _ _ hh
      · rw [if_neg hcu]
        unfold uriNodup
        simp only
        rw [map_uri_bump]
        exact h

theorem randomLiked_nodup (ts : List SubmittedTrack) :
    ∀ (qm : QM), uriNodup qm → uriNodup (addRandomLiked qm ts) := by
  induction ts with
  | nil => intro qm h; exact h
  | cons t ts ih =>
    intro qm h
    exact ih _ (submitStep_nodup qm t h)

theorem list_swap_decomp {α : Type} (l : List α) (i : Nat) (a b : α)
    (h1 : l.get? i = some a) (h2 : l.get? (i + 1) = some b) :
    l = l.take i ++ a :: b :: l.drop (i + 2) := by
  have hi : i < l.length := by
    by_contra h
    push_neg at h
    rw [List.get?_eq_none.mpr h] at h1
    cases h1
  have hi2 : i + 1 < l.length := by
    by_contra h
    push_neg at h
    rw [List.get?_eq_none.mpr h] at h2
    cases h2
  have d1 := List.drop_eq_get_cons hi
  have d2 := List.drop_eq_get_cons hi2
  rw [List.get?_eq_get hi] at h1
  rw [List.get?_eq_get hi2] at h2
  conv_lhs => rw [← List.take_append_drop i l]
  rw [d1, d2]
  simp only [List.get_eq_getElem] at h1 h2 ⊢
  rw [Option.some.inj h1, Option.some.inj h2]

theorem moveTrackBackOne_perm (q : List SubmittedTrack) (uri : String) :
    ((moveTrackBackOne q uri).2).Perm q := by
  unfold moveTrackBackOne
  cases hf : q.findIdx? (fun t => t.spotifyUri == uri) with
  | none => exact List.Perm.refl q
  | some i =>
    dsimp only
    cases h1 : q.get? i with
    | none => exact List.Perm.refl q
    | some a =>
      cases h2 : q.get? (i + 1) with
      | none => exact List.Perm.refl q
      | some b =>
        dsimp only
        conv_rhs => rw [list_swap_decomp q i a b h1 h2]
        exact List.Perm.append_left _ (List.Perm.swap a b _)

theorem applyOp_nodup (qm : QM) (op : QueueOp) (h : uriNodup qm) :
    uriNodup (applyOp qm op) := by
  cases op with
  | submit t => exact submitStep_nodup qm t h
  | jam cu uri je jn now => exact jamStep_nodup qm cu uri je jn now h
  | randomLiked ts => exact randomLiked_nodup ts qm h
  | remove uri =>
    unfold applyOp removeTrack uriNodup
    dsimp only
    cases hf : qm.submitted.findIdx? (fun t => t.spotifyUri == uri) with
    | none => exact h
    | some i =>
      dsimp only
      exact ((List.eraseIdx_sublist qm.submitted i).map _).nodup h
  | delay uri =>
    unfold applyOp uriNodup
    dsimp only
    exact (((moveTrackBackOne_perm qm.submitted uri).map _).nodup_iff).mpr h
  | consume isFb =>
    unfold applyOp consumeNextTrack uriNodup
    dsimp only
    by_cases hb : isFb = true
    · rw [if_pos hb]; exact h
    · rw [if_neg hb]
      exact ((List.tail_sublist qm.submitted).map _).nodup h

theorem applyOps_nodup (ops : List QueueOp) :
    ∀ (qm : QM), uriNodup qm → uriNodup (applyOps ops qm) := by
  induction ops with
  | nil => intro qm h; exact h
  | cons op ops ih =>
    intro qm h
    exact ih _ (applyOp_nodup qm op h)

/-- C6. Queue uniqueness: starting from the fresh server state, any sequence
of public operations (guarded submissions, jam promotion, master-random-
liked bulk add, removals, delays, consumption) leaves the user-submitted
queue free of duplicate provider URIs. -/
theorem queue_uri_unique (ops : List QueueOp) : uriNodup (applyOps ops emptyQM) :=
  applyOps_nodup ops emptyQM (by simp [uriNodup, emptyQM])

/-! Session de-duplication (C7). -/

theorem lookup_mem {β : Type} (k : String) (v : β) :
    ∀ (l : List (String × β)), List.lookup k l = some v → (k, v) ∈ l := by
  intro l
  induction l with
  | nil => intro h; cases h
  | cons p ps ih =>
    intro h
    rcases p with ⟨a, b⟩
    rw [List.lookup_cons] at h
    by_cases hk : (k == a) = true
    · simp only [hk] at h
      cases h
      have : k = a := by simpa using hk
      subst this
      exact List.mem_cons_self _ _
    · simp only [Bool.not_eq_true] at hk
      simp only [hk] at h
      exact List.mem_cons_of_mem _ (ih h)

/-- First listener session of the C7 scenario. -/
def c7ss1 : Sessions := listenerLoginStep [] "s1" "Ann" "a@x.com" 0

/-- The processed login of the C7 scenario. -/
def c7login : LoginResult := loginStep c7ss1 none "s1"

/-- Session map after a second listener-login with the same email, issued
after the login was processed. -/
def c7ss2 : Sessions := listenerLoginStep c7login.sessions "s2" "Ann" "a@x.com" 5

/-- Number of sessions carrying the given email, case-insensitively. -/
def emailCount (ss : Sessions) (e : String) : Nat :=
  (ss.filter (fun p => lowerStr (sessEmail p.2) == lowerStr e)).length

/-- C7 counterexample: a login for session s1 with email a@x.com is
processed (ok), and afterwards a listener-login for the same email creates a
second session; at that later point two sessions exist for the email, so
the claim that at most one session per email exists at any point after a
login has been processed is false. -/
theorem session_dedup_counterexample :
    c7login.ok = true
    ∧ emailCount c7ss2 "a@x.com" = 2
    ∧ ¬ emailCount c7ss2 "a@x.com" ≤ 1 := by
  refine ⟨rfl, rfl, by decide⟩

/-- C7 (amended). Immediately after a login message for a valid session is
processed, that session is the only one in the map with its email compared
case-insensitively: every other same-email session present before is
evicted. The conductor role transfers to the logging-in session when some
evicted duplicate was the conductor and the logging-in session carries a
spotify email and a provider access token (the source requires the spotify
email in addition to the token of the claim). -/
theorem session_dedup_amended (ss : Sessions) (masterId : Option String)
    (sid : String) (r : SessionRec)
    (hlk : List.lookup sid ss = some r)
    (hv : validSession r = true) :
    (loginStep ss masterId sid).ok = true
    ∧ (sid, r) ∈ (loginStep ss masterId sid).sessions
    ∧ (∀ p ∈ (loginStep ss masterId sid).sessions, p.1 ≠ sid →
        sessEmail p.2 ≠ "" → lowerStr (sessEmail p.2) ≠ lowerStr (sessEmail r))
    ∧ (∀ p ∈ ss, p.1 ≠ sid → sessEmail p.2 ≠ "" →
        lowerStr (sessEmail p.2) = lowerStr (sessEmail r) →
        p ∉ (loginStep ss masterId sid).sessions)
    ∧ (∀ d pr, masterId = some d → d ≠ sid → (d, pr) ∈ ss →
        sessEmail pr ≠ "" → lowerStr (sessEmail pr) = lowerStr (sessEmail r) →
        spotEmail r ≠ "" → sessHasToken r = true →
        (loginStep ss masterId sid).masterId = some sid) := by
  unfold loginStep
  rw [hlk]
  dsimp only
  rw [if_neg (by simp [hv])]
  refine ⟨rfl, ?_, ?_, ?_, ?_⟩
  · simp only [List.mem_filter]
    refine ⟨lookup_mem sid r ss hlk, ?_⟩
    simp only [Bool.not_eq_eq_eq_not, Bool.not_true, Bool.not_eq_true]
    rw [← Bool.not_eq_true]
    intro hc
    rw [List.contains_eq_any_beq] at hc
    simp only [List.any_eq_true, beq_iff_eq] at hc
    obtain ⟨d, hd, hds⟩ := hc
    simp only [List.mem_map, List.mem_filter, Bool.and_eq_true, bne_iff_ne] at hd
    obtain ⟨p, ⟨_, hne, _⟩, hp1⟩ := hd
    exact hne.1 (by rw [hp1, hds])
  · intro p hp hp1 hpe hpl
    simp only [List.mem_filter] at hp
    obtain ⟨hpss, hpc⟩ := hp
    have hdups : p.1 ∈ (ss.filter (fun p => p.1 != sid && sessEmail p.2 != "" &&
        (lowerStr (sessEmail p.2) == lowerStr (sessEmail r)))).map Prod.fst := by
      simp only [List.mem_map]
      refine ⟨p, ?_, rfl⟩
      simp only [List.mem_filter, Bool.and_eq_true, bne_iff_ne, beq_iff_eq]
      exact ⟨hpss, ⟨⟨hp1, hpe⟩, hpl⟩⟩
    rw [Bool.not_eq_eq_eq_not, Bool.not_true, ← Bool.not_eq_true,
      List.contains_eq_any_beq] at hpc
    simp only [List.any_eq_true, beq_iff_eq, not_exists, not_and] at hpc
    exact hpc p.1 hdups rfl
  · intro p hpss hp1 hpe hpl hmem
    simp only [List.mem_filter] at hmem
    obtain ⟨_, hpc⟩ := hmem
    have hdups : p.1 ∈ (ss.filter (fun p => p.1 != sid && sessEmail p.2 != "" &&
        (lowerStr (sessEmail p.2) == lowerStr (sessEmail r)))).map Prod.fst := by
      simp only [List.mem_map]
      refine ⟨p, ?_, rfl⟩
      simp only [List.mem_filter, Bool.and_eq_true, bne_iff_ne, beq_iff_eq]
      exact ⟨hpss, ⟨⟨hp1, hpe⟩, hpl⟩⟩
    rw [Bool.not_eq_eq_eq_not, Bool.not_true, ← Bool.not_eq_true,
      List.contains_eq_any_beq] at hpc
    simp only [List.any_eq_true, beq_iff_eq, not_exists, not_and] at hpc
    exact hpc p.1 hdups rfl
  · intro d pr hmd hdnes hdm hpe hpl hsp htk
    have hany : (((ss.filter (fun p => p.1 != sid && sessEmail p.2 != "" &&
        (lowerStr (sessEmail p.2) == lowerStr (sessEmail r)))).map Prod.fst).any
        (fun d => masterId == some d)) = true := by
      simp only [List.any_eq_true]
      refine ⟨d, ?_, by rw [hmd]; exact beq_self_eq_true _⟩
      simp only [List.mem_map]
      refine ⟨(d, pr), ?_, rfl⟩
      simp only [List.mem_filter, Bool.and_eq_true, bne_iff_ne, beq_iff_eq]
      exact ⟨hdm, ⟨⟨hdnes, hpe⟩, hpl⟩⟩
    rw [if_pos (by rw [hany]; simp [hsp, htk])]
    rfl

/-- The evicted conductor session of the C7 witness scenario. -/
def c7old : SessionRec :=
  { spotify := some { name := "Ann", email := "A@X.com", access_token := "t0",
                      refresh_token := "r0" },
    listener := none, lastHeartbeat := 0 }

/-- The logging-in session of the C7 witness scenario. -/
def c7new : SessionRec :=
  { spotify := some { name := "Ann", email := "a@x.com", access_token := "t1",
                      refresh_token := "r1" },
    listener := none, lastHeartbeat := 1 }

/-- C7 witness: the amended theorem at a two-session map where the evicted
duplicate was the conductor, showing the transfer to the logging-in
session. -/
theorem session_dedup_amended_witness :
    (loginStep [("old", c7old), ("new", c7new)] (some "old") "new").masterId = some "new" :=
  (session_dedup_amended [("old", c7old), ("new", c7new)] (some "old") "new" c7new
      rfl (by decide)).2.2.2.2
    "old" c7old rfl (by decide) (by decide) (by decide) (by decide) (by decide) (by decide)

/-! Consume-on-confirm (C2): per-phase lemmas on the poll tick. -/

/-- No consumption marker appears among the outputs. -/
def noConsume (outs : List Out) : Prop :=
  ∀ b, Out.consumedFromQueue b ∉ outs

theorem noConsume_append (o1 o2 : List Out) (h1 : noConsume o1) (h2 : noConsume o2) :
    noConsume (o1 ++ o2) := by
  intro b hb
  rcases List.mem_append.mp hb with h | h
  · exact h1 b h
  · exact h2 b h

theorem setCurrent_spec (s : ServerState) (now : Nat) (t : SubmittedTrack) (b : Bool) :
    (setCurrentTrackAndStart s now t b).1.submitted = s.submitted
    ∧ (setCurrentTrackAndStart s now t b).1.fallback = s.fallback
    ∧ (setCurrentTrackAndStart s now t b).1.mode = s.mode
    ∧ (setCurrentTrackAndStart s now t b).1.currentlyPlayingTrack = some t
    ∧ noConsume (setCurrentTrackAndStart s now t b).2 := by
  cases b <;> simp [setCurrentTrackAndStart, noConsume]

theorem failure_sub_eq (s : ServerState) (now : Nat) (curr : Snapshot)
    (tok : Bool) (rel : Option (List SubmittedTrack)) :
    (failurePhase s now curr tok rel).1.submitted = s.submitted := by
  unfold failurePhase
  cases s.expectedPlayingUri with
  | none => rfl
  | some exp =>
    dsimp only
    split
    · split
      · split
        · split
          · simpa using peek_submitted_eq ⟨s.submitted, s.fallback⟩ tok rel
          · simpa using peek_submitted_eq ⟨s.submitted, s.fallback⟩ tok rel
        · rfl
      · rfl
    · rfl

theorem failure_nocons (s : ServerState) (now : Nat) (curr : Snapshot)
    (tok : Bool) (rel : Option (List SubmittedTrack)) :
    noConsume (failurePhase s now curr tok rel).2 := by
  unfold failurePhase
  cases s.expectedPlayingUri with
  | none => intro b hb; cases hb
  | some exp =>
    dsimp only
    split
    · split
      · split
        · split <;> simp [noConsume]
        · intro b hb; cases hb
      · intro b hb; cases hb
    · intro b hb; cases hb

theorem failure_fb_cons (s : ServerState) (now : Nat) (curr : Snapshot)
    (tok : Bool) (rel : Option (List SubmittedTrack))
    (hfb : s.fallback ≠ []) :
    (failurePhase s now curr tok rel).1.fallback = s.fallback := by
  unfold failurePhase
  cases s.expectedPlayingUri with
  | none => rfl
  | some exp =>
    dsimp only
    split
    · split
      · split
        · split
          · simpa using peek_fallback_eq ⟨s.submitted, s.fallback⟩ tok rel (Or.inr (Or.inl hfb))
          · simpa using peek_fallback_eq ⟨s.submitted, s.fallback⟩ tok rel (Or.inr (Or.inl hfb))
        · rfl
      · rfl
    · rfl

theorem failure_cur_subhead (s : ServerState) (now : Nat) (curr : Snapshot)
    (tok : Bool) (rel : Option (List SubmittedTrack)) (t : SubmittedTrack)
    (rest : List SubmittedTrack)
    (hsub : s.submitted = t :: rest) (hcur : s.currentlyPlayingTrack = some t) :
    (failurePhase s now curr tok rel).1.currentlyPlayingTrack = some t := by
  unfold failurePhase
  cases s.expectedPlayingUri with
  | none => exact hcur
  | some exp =>
    dsimp only
    have hpk : peekNextTrack ⟨s.submitted, s.fallback⟩ tok rel =
        (some (t, false), ⟨s.submitted, s.fallback⟩) := by
      apply peek_sub_cons
      exact hsub
    split
    · split
      · split
        · rw [hpk]
        · exact hcur
      · exact hcur
    · exact hcur

theorem findIdxQ_ge_start {α : Type} (p : α → Bool) :
    ∀ (l : List α) (i j : Nat), List.findIdx? p l i = some j → i ≤ j := by
  intro l
  induction l with
  | nil => intro i j h; cases h
  | cons a as ih =>
    intro i j h
    rw [List.findIdx?_cons] at h
    by_cases hp : p a = true
    · rw [if_pos hp] at h
      cases h
      exact le_refl _
    · rw [if_neg hp] at h
      have := ih (i + 1) j h
      omega

theorem drift_fb (s : ServerState) (i : PollInput) :
    (driftPhase s i).1.fallback = s.fallback := by
  unfold driftPhase
  dsimp only
  repeat' split
  all_goals rfl

theorem drift_mode (s : ServerState) (i : PollInput) :
    (driftPhase s i).1.mode = s.mode := by
  unfold driftPhase
  dsimp only
  repeat' split
  all_goals rfl

theorem drift_nocons (s : ServerState) (i : PollInput) :
    noConsume (driftPhase s i).2 := by
  unfold driftPhase
  dsimp only
  repeat' split
  all_goals simp [noConsume]

theorem drift_subhead (s : ServerState) (i : PollInput) (t : SubmittedTrack)
    (rest : List SubmittedTrack)
    (hcur : s.currentlyPlayingTrack = some t) (hsub : s.submitted = t :: rest) :
    (driftPhase s i).1.submitted.head? = some t := by
  unfold driftPhase
  rw [hcur]
  cases hu : i.snap.uri with
  | none => dsimp only; rw [hsub]; rfl
  | some mUri =>
    dsimp only
    by_cases hne : mUri ≠ t.spotifyUri
    · rw [if_pos hne]
      by_cases hg : i.now - s.lastTrackChangeCommand < TRACK_CHANGE_GRACE_PERIOD_MS
      · rw [if_pos hg]
        rw [hsub]
        rfl
      · rw [if_neg hg]
        by_cases hq : hasTrack s.submitted mUri = true
        · rw [if_pos hq]
          have hpt : (t.spotifyUri == mUri) = false := by
            simp only [beq_eq_false_iff_ne]
            exact fun h => hne h.symm
          by_cases hjs : s.lastManualSkipAt ≠ 0 ∧
              i.now - s.lastManualSkipAt < TRACK_CHANGE_GRACE_PERIOD_MS
          · rw [if_pos hjs]
            dsimp only
            rw [hsub, List.findIdx?_cons, hpt]
            simp only [Bool.false_eq_true, if_false]
            cases hf : List.findIdx? (fun x => x.spotifyUri == mUri) rest 1 with
            | none => rfl
            | some qi =>
              have hq1 : 1 ≤ qi := findIdxQ_ge_start _ rest 1 qi hf
              obtain ⟨k, rfl⟩ : ∃ k, qi = k + 1 := ⟨qi - 1, by omega⟩
              dsimp only
              cases hg2 : (t :: rest).get? (k + 1) with
              | none => rfl
              | some newTrack => simp [List.eraseIdx]
          · rw [if_neg hjs]
            rw [hsub, List.findIdx?_cons, hpt]
            simp only [Bool.false_eq_true, if_false]
            cases hf : List.findIdx? (fun x => x.spotifyUri == mUri) rest 1 with
            | none => simp [hsub]
            | some qi =>
              have hq1 : 1 ≤ qi := findIdxQ_ge_start _ rest 1 qi hf
              obtain ⟨k, rfl⟩ : ∃ k, qi = k + 1 := ⟨qi - 1, by omega⟩
              dsimp only
              cases hg2 : (t :: rest).get? (k + 1) with
              | none => simp [hsub]
              | some newTrack => simp [List.eraseIdx]
        · rw [if_neg hq]
          rw [hsub]
          rfl
    · rw [if_neg hne]
      rw [hsub]
      rfl

theorem up_sub (s : ServerState) (c : Snapshot) :
    (updateProgress s c).submitted = s.submitted := by
  unfold updateProgress
  repeat' split
  all_goals rfl

theorem up_fb (s : ServerState) (c : Snapshot) :
    (updateProgress s c).fallback = s.fallback := by
  unfold updateProgress
  repeat' split
  all_goals rfl

theorem up_mode (s : ServerState) (c : Snapshot) :
    (updateProgress s c).mode = s.mode := by
  unfold updateProgress
  repeat' split
  all_goals rfl

theorem up_cur_none (s : ServerState) (c : Snapshot) :
    (updateProgress s c).currentlyPlayingTrack = none ↔
      s.currentlyPlayingTrack = none := by
  unfold updateProgress
  cases hc : s.currentlyPlayingTrack with
  | none => simp [hc]
  | some c' =>
    dsimp only
    split <;> simp [hc]

theorem fin_nocons (s : ServerState) (i : PollInput) :
    noConsume (finishedPhase s i).2 := by
  unfold finishedPhase
  split
  · split
    · dsimp only
      split
      · intro b hb
        rcases List.mem_cons.mp hb with h | h
        · cases h
        · exact (setCurrent_spec _ _ _ _).2.2.2.2 b h
      · split <;> simp [noConsume]
    · simp [noConsume]
  · simp [noConsume]

theorem fin_queues (s : ServerState) (i : PollInput)
    (h : s.submitted ≠ [] ∨ s.fallback ≠ []) :
    (finishedPhase s i).1.submitted = s.submitted
    ∧ (finishedPhase s i).1.fallback = s.fallback := by
  unfold finishedPhase
  have hq := peek_qm_eq ⟨s.submitted, s.fallback⟩ i.tokenPresent i.reload (by simpa using h)
  split
  · split
    · dsimp only
      rw [hq]
      split
      · constructor
        · exact (setCurrent_spec _ _ _ _).1
        · exact (setCurrent_spec _ _ _ _).2.1
      · split
        · exact ⟨rfl, rfl⟩
        · exact ⟨rfl, rfl⟩
    · exact ⟨rfl, rfl⟩
  · exact ⟨rfl, rfl⟩

theorem fin_inv (s : ServerState) (i : PollInput) (h : s.mode = .masterPlay) :
    (finishedPhase s i).1.mode = .masterPlay
    ∨ (finishedPhase s i).1.currentlyPlayingTrack = none := by
  unfold finishedPhase
  split
  · split
    · dsimp only
      split
      · exact Or.inl (((setCurrent_spec _ _ _ _).2.2.1).trans h)
      · split
        · exact Or.inr rfl
        · exact Or.inr rfl
    · exact Or.inl h
  · exact Or.inl h

theorem trans_guard (s : ServerState) (i : PollInput) (ns : PlayState)
    (h : s.mode = .masterPlay ∨ s.currentlyPlayingTrack = none) :
    (transitionPhase s i ns).1.submitted = s.submitted
    ∧ (transitionPhase s i ns).1.fallback = s.fallback
    ∧ noConsume (transitionPhase s i ns).2 := by
  unfold transitionPhase
  split
  · dsimp only
    split
    · rename_i hcond
      rcases h with hm | hc
      · exact absurd hm hcond.2
      · rw [hc]
        exact ⟨rfl, rfl, by simp [noConsume]⟩
    · split
      · split
        · exact ⟨rfl, rfl, by simp [noConsume]⟩
        · split
          · exact ⟨rfl, rfl, by simp [noConsume]⟩
          · exact ⟨rfl, rfl, by simp [noConsume]⟩
      · exact ⟨rfl, rfl, by simp [noConsume]⟩
  · split
    · split
      · exact ⟨rfl, rfl, by simp [noConsume]⟩
      · exact ⟨rfl, rfl, by simp [noConsume]⟩
    · exact ⟨rfl, rfl, by simp [noConsume]⟩

theorem adv_nocons (s : ServerState) (i : PollInput) :
    noConsume (advanceOnEnd s i).2 := by
  unfold advanceOnEnd
  split <;>
    (dsimp only
     split
     · intro b hb
       rcases List.mem_append.mp hb with h | h
       · simp at h
         try cases h
       · exact (setCurrent_spec _ _ _ _).2.2.2.2 b h
     · split
       · simp [noConsume]
       · simp [noConsume])

theorem adv_queues (s : ServerState) (i : PollInput)
    (h : s.submitted ≠ [] ∨ s.fallback ≠ []) :
    (advanceOnEnd s i).1.submitted = s.submitted
    ∧ (advanceOnEnd s i).1.fallback = s.fallback := by
  unfold advanceOnEnd
  have hq := peek_qm_eq ⟨s.submitted, s.fallback⟩ i.tokenPresent i.reload (by simpa using h)
  split <;>
    (dsimp only
     rw [hq]
     split
     · exact ⟨(setCurrent_spec _ _ _ _).1, (setCurrent_spec _ _ _ _).2.1⟩
     · split
       · exact ⟨rfl, rfl⟩
       · exact ⟨rfl, rfl⟩)

theorem pollRest_nocons (s : ServerState) (i : PollInput) :
    noConsume (pollRest s i).2 := by
  unfold pollRest
  split
  · simp [noConsume]
  · rename_i hmode
    have hplay : s.mode = .masterPlay := by
      cases hm : s.mode
      · rfl
      · exact absurd hm hmode
    split
    · simp [noConsume]
    · dsimp only
      apply noConsume_append
      · apply noConsume_append
        · exact drift_nocons s i
        · exact fin_nocons _ i
      · apply (trans_guard _ i _ ?_).2.2
        apply fin_inv _ i
        rw [up_mode, drift_mode]
        exact hplay

theorem pollRest_subhead (s : ServerState) (i : PollInput) (t : SubmittedTrack)
    (rest : List SubmittedTrack)
    (hcur : s.currentlyPlayingTrack = some t) (hsub : s.submitted = t :: rest) :
    (pollRest s i).1.submitted.head? = some t := by
  unfold pollRest
  split
  · rw [up_sub s i.snap, hsub]
    rfl
  · rename_i hmode
    have hplay : s.mode = .masterPlay := by
      cases hm : s.mode
      · rfl
      · exact absurd hm hmode
    split
    · rw [hsub]; rfl
    · rename_i p hp
      dsimp only
      have hd : (driftPhase s i).1.submitted.head? = some t :=
        drift_subhead s i t rest hcur hsub
      obtain ⟨rest1, hsub1⟩ : ∃ r1, (driftPhase s i).1.submitted = t :: r1 := by
        cases hx : (driftPhase s i).1.submitted with
        | nil => rw [hx] at hd; cases hd
        | cons a l =>
          rw [hx] at hd
          exact ⟨l, by rw [List.head?_cons] at hd; rw [Option.some.inj hd]⟩
      have hu1 : (updateProgress (driftPhase s i).1 i.snap).submitted = t :: rest1 := by
        rw [up_sub]; exact hsub1
      have hfq := fin_queues (updateProgress (driftPhase s i).1 i.snap) i
        (Or.inl (by rw [hu1]; simp))
      have hmode2 : (updateProgress (driftPhase s i).1 i.snap).mode = .masterPlay := by
        rw [up_mode, drift_mode]; exact hplay
      have htr := (trans_guard _ i
        (if p = true then PlayState.play else PlayState.pause)
        (fin_inv _ i hmode2)).1
      rw [htr, hfq.1, hu1]
      rfl

theorem pollRest_fb (s : ServerState) (i : PollInput) (x : SubmittedTrack)
    (xs : List SubmittedTrack) (hfb : s.fallback = x :: xs) :
    (pollRest s i).1.fallback = s.fallback := by
  unfold pollRest
  split
  · rw [up_fb]
  · rename_i hmode
    have hplay : s.mode = .masterPlay := by
      cases hm : s.mode
      · rfl
      · exact absurd hm hmode
    split
    · rfl
    · rename_i p hp
      dsimp only
      have hdf : (driftPhase s i).1.fallback = s.fallback := drift_fb s i
      have hu : (updateProgress (driftPhase s i).1 i.snap).fallback = s.fallback := by
        rw [up_fb, hdf]
      have hfq := fin_queues (updateProgress (driftPhase s i).1 i.snap) i
        (Or.inr (by rw [hu, hfb]; simp))
      have hmode2 : (updateProgress (driftPhase s i).1 i.snap).mode = .masterPlay := by
        rw [up_mode, drift_mode]; exact hplay
      have htr := (trans_guard _ i
        (if p = true then PlayState.play else PlayState.pause)
        (fin_inv _ i hmode2)).2.1
      rw [htr, hfq.2, hu]

theorem pollStep_nocons (s : ServerState) (i : PollInput) :
    noConsume (pollStep s i).2 := by
  unfold pollStep
  split
  · simp [noConsume]
  · dsimp only
    split
    · split
      · exact noConsume_append _ _ (failure_nocons _ _ _ _ _) (pollRest_nocons _ _)
      · exact noConsume_append _ _ (failure_nocons _ _ _ _ _) (adv_nocons _ _)
    · exact noConsume_append _ _ (failure_nocons _ _ _ _ _) (pollRest_nocons _ _)

theorem pollStep_subhead (s : ServerState) (i : PollInput) (t : SubmittedTrack)
    (rest : List SubmittedTrack)
    (hcur : s.currentlyPlayingTrack = some t) (hsub : s.submitted = t :: rest) :
    (pollStep s i).1.submitted.head? = some t := by
  unfold pollStep
  split
  · rw [hsub]; rfl
  · dsimp only
    have hs0 : (failurePhase { s with lastPlaybackState := some i.snap } i.now i.snap
        i.tokenPresent i.reload).1.submitted = t :: rest :=
      (failure_sub_eq _ _ _ _ _).trans hsub
    have hc0 : (failurePhase { s with lastPlaybackState := some i.snap } i.now i.snap
        i.tokenPresent i.reload).1.currentlyPlayingTrack = some t :=
      failure_cur_subhead _ _ _ _ _ t rest hsub hcur
    split
    · split
      · exact pollRest_subhead _ i t rest (by simpa using hc0) (by simpa using hs0)
      · rw [(adv_queues _ i (Or.inl (by rw [hs0]; simp))).1, hs0]
        rfl
    · exact pollRest_subhead _ i t rest hc0 hs0

theorem pollStep_fbhead (s : ServerState) (i : PollInput) (x : SubmittedTrack)
    (xs : List SubmittedTrack) (hfb : s.fallback = x :: xs) :
    (pollStep s i).1.fallback = s.fallback := by
  unfold pollStep
  split
  · rfl
  · dsimp only
    have hf0 : (failurePhase { s with lastPlaybackState := some i.snap } i.now i.snap
        i.tokenPresent i.reload).1.fallback = x :: xs :=
      (failure_fb_cons _ _ _ _ _ (by simp [hfb])).trans hfb
    split
    · split
      · rw [pollRest_fb _ i x xs (by simpa using hf0)]
        simpa [hfb] using hf0
      · rw [(adv_queues _ i (Or.inr (by rw [hf0]; simp))).2, hf0, hfb]
    · rw [pollRest_fb _ i x xs hf0, hf0, hfb]

/-- The drift-correction block with its provider-call suspension point made
explicit. The correction play command (the await in the branch where the
master plays a track that is not in the submitted queue) suspends the tick,
and the server may process inbound messages at exactly such suspensions:
the concurrency model serialises all mutations but permits provider calls
to suspend, so a master_pause message can run and set the mode to paused
while the tick waits for the play call. The flag pauseMsg tells whether a
master_pause message is processed during that suspension; with
pauseMsg = false the block behaves exactly as driftPhase. -/
def driftPhaseI (s : ServerState) (i : PollInput) (pauseMsg : Bool) :
    ServerState × List Out :=
  match s.currentlyPlayingTrack, i.snap.uri with
  | some c, some mUri =>
    if mUri ≠ c.spotifyUri then
      if i.now - s.lastTrackChangeCommand < TRACK_CHANGE_GRACE_PERIOD_MS then (s, [])
      else if hasTrack s.submitted mUri then
        let justSkipped := s.lastManualSkipAt ≠ 0 ∧
          i.now - s.lastManualSkipAt < TRACK_CHANGE_GRACE_PERIOD_MS
        let s := if justSkipped then { s with lastManualSkipAt := 0 } else s
        match s.submitted.findIdx? (fun t => t.spotifyUri == mUri) with
        | some qi =>
          let s := { s with playHistory :=
            s.playHistory ++ [({ timestamp := i.now, track := c, startedBy := i.masterName } : PlayHistoryEntry)] }
          match s.submitted.get? qi with
          | some newTrack =>
            let s := { s with submitted := s.submitted.eraseIdx qi,
                              currentlyPlayingTrack := some newTrack,
                              masterTrackStarted := true }
            let s := { s with history := trimHistory (s.history ++
              (if ¬ justSkipped ∧ strPresent newTrack.name ∧ strPresent newTrack.artist
               then [trackPlayEvent i.now newTrack (i.masterName.getD "Unknown") ""]
               else [])) }
            (s, [Out.tracksBroadcast, Out.modeBroadcast,
                 Out.playHistoryBroadcast, Out.historyBroadcast])
          | none => (s, [])
        | none => (s, [])
      else
        let r := if pauseMsg then masterPauseStep s else (s, [])
        (r.1, Out.playCommand c.spotifyUri :: r.2)
    else (s, [])
  | _, _ => (s, [])

/-- pollRest with the drift-correction suspension made explicit; with
pauseMsg = false it behaves exactly as pollRest. -/
def pollRestI (s : ServerState) (i : PollInput) (pauseMsg : Bool) :
    ServerState × List Out :=
  if s.mode = .masterPause then
    (updateProgress s i.snap, [Out.modeBroadcast])
  else
    match i.snap.is_playing with
    | none => (s, [])
    | some p =>
      let newState : PlayState := if p then .play else .pause
      let r1 := driftPhaseI s i pauseMsg
      let s := updateProgress r1.1 i.snap
      let r2 := finishedPhase s i
      let r3 := transitionPhase r2.1 i newState
      (r3.1, r1.2 ++ r2.2 ++ r3.2)

/-- pollMasterUserPlayback as one tick in which an inbound master_pause
message may be processed while the tick is suspended at the drift-correction
play call (pauseMsg = true), or no message is processed at any suspension
(pauseMsg = false, the serialised tick pollStep). -/
def pollStepI (s : ServerState) (i : PollInput) (pauseMsg : Bool) :
    ServerState × List Out :=
  if ¬ i.tokenPresent then (s, []) else
  let prev := s.lastPlaybackState
  let curr := i.snap
  let s := { s with lastPlaybackState := some curr }
  let r0 := failurePhase s i.now curr i.tokenPresent i.reload
  let s := r0.1
  if endDetected prev curr then
    if s.lastManualSkipAt ≠ 0 ∧ i.now - s.lastManualSkipAt < TRACK_CHANGE_GRACE_PERIOD_MS then
      let r := pollRestI { s with lastManualSkipAt := 0 } i pauseMsg
      (r.1, r0.2 ++ r.2)
    else
      let r := advanceOnEnd s i
      (r.1, r0.2 ++ r.2)
  else
    let r := pollRestI s i pauseMsg
    (r.1, r0.2 ++ r.2)

theorem driftPhaseI_false (s : ServerState) (i : PollInput) :
    driftPhaseI s i false = driftPhase s i := by
  unfold driftPhaseI driftPhase
  repeat' split
  all_goals first
  | rfl
  | simp_all

theorem pollRestI_false (s : ServerState) (i : PollInput) :
    pollRestI s i false = pollRest s i := by
  unfold pollRestI pollRest
  split
  · rfl
  · split
    · rfl
    · dsimp only
      rw [driftPhaseI_false]

theorem pollStepI_false (s : ServerState) (i : PollInput) :
    pollStepI s i false = pollStep s i := by
  unfold pollStepI pollStep
  split
  · rfl
  · dsimp only
    split
    · split
      · rw [pollRestI_false]
      · rfl
    · rw [pollRestI_false]

/-- The nominated track of the C2 scenarios: X, peeked from the head of the
submitted queue and not yet consumed. -/
def c2t : SubmittedTrack :=
  { spotifyUri := "spotify:track:x", userEmail := some "u1@x.com",
    spotifyName := some "U1", timestamp := 0 }

/-- Room state of the C2 counterexample: X nominated at the head of the
submitted queue with playback commanded at 6000 and not yet confirmed
(expected URI X, failure window still open at now = 10000). A previous tick
observed a pause inside the grace window, which records
lastMasterPlaybackState = pause before the grace check returns, while the
mode stays playing and the track was never marked started. -/
def c2sI : ServerState :=
  { baseState with mode := .masterPlay,
                   currentlyPlayingTrack := some c2t,
                   submitted := [c2t],
                   currentTrackIsFallback := false,
                   currentTrackConsumed := false,
                   masterUserSessionId := some "master-session",
                   lastMasterPlaybackState := some .pause,
                   masterTrackStarted := false,
                   lastPlaybackState := some
                     { uri := some "spotify:track:other", progress_ms := some 100,
                       duration_ms := some 200000, is_playing := some false },
                   lastTrackChangeCommand := 6000,
                   playbackFailureCheckTime := 6000,
                   expectedPlayingUri := some "spotify:track:x" }

/-- Poll input of the C2 counterexample: the master player reports a
different track playing (not in the queue), the grace window has elapsed and
the failure window has not, so the tick reaches the drift-correction play
call and suspends there. -/
def c2iI : PollInput :=
  { now := 10000, tokenPresent := true,
    snap := { uri := some "spotify:track:other", progress_ms := some 500,
              duration_ms := some 200000, is_playing := some true },
    reload := none, masterName := some "M" }

/-- C2 counterexample: with a master_pause message processed while the tick
is suspended at the drift-correction play call, the mode is paused when the
tick resumes, so the pause-to-play transition branch fires and consumes the
nominated head from the submitted queue - although the observed URI is a
different track than the expected one, so playback of the nominated track
was never confirmed. The nominated, unconsumed track does not remain at the
head of its queue tier, refuting the claim on this reachable execution. -/
theorem consume_on_confirm_counterexample :
    c2sI.currentlyPlayingTrack = some c2t
    ∧ c2sI.currentTrackConsumed = false
    ∧ c2sI.currentTrackIsFallback = false
    ∧ c2sI.submitted.head? = some c2t
    ∧ c2sI.expectedPlayingUri = some c2t.spotifyUri
    ∧ c2iI.snap.uri ≠ some c2t.spotifyUri
    ∧ Out.consumedFromQueue false ∈ (pollStepI c2sI c2iI true).2
    ∧ ¬ (pollStepI c2sI c2iI true).1.submitted.head? = some c2t := by
  refine ⟨rfl, rfl, rfl, rfl, rfl, by decide, by decide, by decide⟩

/-- C2 (amended). In a poll tick during which no inbound message is
processed at a provider-call suspension, no track is consumed from either
queue tier (the consume branch requires the mode to differ from master_play,
which cannot hold at that point of such a tick while a current track
exists), and a nominated, not yet consumed track remains at the head of its
queue tier, so a provider failure cannot lose it. This safety does not
extend to ticks interleaved with a mid-suspension master_pause: the consume
branch checks neither the observed URI nor the mode again, and can consume
the nominated head without confirmation (see the counterexample). -/
theorem consume_on_confirm_amended (s : ServerState) (i : PollInput) (t : SubmittedTrack) :
    pollStepI s i false = pollStep s i
    ∧ (∀ b, Out.consumedFromQueue b ∉ (pollStepI s i false).2)
    ∧ (s.currentlyPlayingTrack = some t → s.currentTrackConsumed = false →
        ((s.currentTrackIsFallback = false → s.submitted.head? = some t →
            (pollStepI s i false).1.submitted.head? = some t)
         ∧ (s.currentTrackIsFallback = true → s.fallback.head? = some t →
            (pollStepI s i false).1.fallback.head? = some t))) := by
  refine ⟨pollStepI_false s i, ?_, ?_⟩
  · rw [pollStepI_false s i]
    exact pollStep_nocons s i
  · intro hcur _
    constructor
    · intro _ hhead
      rw [pollStepI_false s i]
      cases hx : s.submitted with
      | nil => rw [hx] at hhead; cases hhead
      | cons a l =>
        rw [hx, List.head?_cons] at hhead
        exact pollStep_subhead s i t l hcur (by rw [hx, Option.some.inj hhead])
    · intro _ hhead
      rw [pollStepI_false s i]
      cases hx : s.fallback with
      | nil => rw [hx] at hhead; cases hhead
      | cons a l =>
        rw [pollStep_fbhead s i a l hx]
        exact hhead

/-- Room state of the C2 witness: X nominated (peeked, not consumed) at the
head of the submitted queue, playback commanded but not yet confirmed. -/
def c2s : ServerState :=
  { baseState with mode := .masterPlay,
                   currentlyPlayingTrack := some c2t,
                   submitted := [c2t],
                   expectedPlayingUri := some "spotify:track:x",
                   playbackFailureCheckTime := 1000,
                   lastTrackChangeCommand := 1000 }

/-- Poll input of the C2 witness: the provider still reports the previous
state, nothing playing, and no message arrives during the tick. -/
def c2i : PollInput :=
  { now := 2000, tokenPresent := true,
    snap := { uri := none, progress_ms := none, duration_ms := none,
              is_playing := some false },
    reload := none, masterName := some "M" }

/-- C2 witness: the amended theorem applied to the concrete nomination state
with no mid-tick message - the nominated track is still at the head of the
submitted queue after the tick. -/
theorem consume_on_confirm_amended_witness :
    (pollStepI c2s c2i false).1.submitted.head? = some c2t :=
  ((consume_on_confirm_amended c2s c2i c2t).2.2 rfl rfl).1 rfl rfl
